import Mathlib

/-!
Verification of the smartcrop crop-selection engine (`smartcrop/library.py`).

The Python source computes with IEEE floats; this development embeds the same
arithmetic over `ℚ` (exact rational arithmetic), the standard shallow-embedding
choice when the properties at stake are not about floating drift.  The one
float operation with no rational counterpart, `math.sqrt`, is passed in as an
uninterpreted function `sq : ℚ → ℚ`; every theorem below holds for an arbitrary
`sq`, and concrete witnesses instantiate it at points where the real square
root is rational.  External PIL primitives (image decoding, LANCZOS
resampling) are out of the core per the spec; where the code calls them the
model takes their output as a parameter, constrained in theorems by the
documented contract (a thumbnail fits inside the requested box).
-/

namespace Smartcrop

/-- Python `int(q)` on a float/rational: truncation toward zero. -/
def pyInt (q : ℚ) : ℤ := if q < 0 then -⌊-q⌋ else ⌊q⌋

/-- Python `%` on rationals with positive modulus (sign follows the divisor):
`a % b = a - b * floor (a / b)`. -/
def qmod (a b : ℚ) : ℚ := a - b * ⌊a / b⌋

/-- Python `range(0, n, step)` for `step > 0`: the multiples of `step`
below `n`, ascending. -/
def pyRangeUp (n step : ℕ) : List ℕ :=
  (List.range ((n + step - 1) / step)).map (· * step)

/-- Python `range(a, b, d)` over the integers, for `d ≠ 0`: the values
`a, a + d, a + 2d, …` short of `b` (descending when `d < 0`, ascending and
typically empty when `d > 0` is fed a start above the stop).  For `d = 0`
Python raises `ValueError`; the one caller whose step can be zero, `crops`,
tests its step for zero and raises before this range is ever built, so the
`d = 0` case here is left as the empty range and is never observed. -/
def pyRange (a b d : ℤ) : List ℤ :=
  (List.range (
    if 0 < d then (if b ≤ a then 0 else (b - a - 1).toNat / d.toNat + 1)
    else if d < 0 then (if a ≤ b then 0 else (a - b - 1).toNat / (-d).toNat + 1)
    else 0)).map
    (fun (k : ℕ) => a + (k : ℤ) * d)

/-- `List.takeWhile` with a decidable `Prop` predicate: the elements of the
list up to (excluding) the first one failing `p`.  This is the shape of a
Python `for` loop whose body `break`s as soon as `p` fails. -/
def takeWhileP (p : α → Prop) [DecidablePred p] : List α → List α
  | [] => []
  | a :: l => if p a then a :: takeWhileP p l else []

/-- First element of a list satisfying a decidable predicate, if any. -/
def findP (p : α → Prop) [DecidablePred p] : List α → Option α
  | [] => none
  | a :: l => if p a then some a else findP p l

/-- `thirds` from `library.py`: the rule-of-thirds bump function
`max(1 - (((x + 2/3) % 2 * 0.5 - 0.5) * 16)^2, 0)`. -/
def thirds (x : ℚ) : ℚ :=
  let t : ℚ := (qmod (x + 2 / 3) 2 * (1 / 2) - 1 / 2) * 16
  max (1 - t * t) 0

/-- Configuration of `SmartCrop.__init__`, with the source's defaults.
Only the fields the modelled operations read are kept. -/
structure Config where
  detail_weight : ℚ := 1 / 5
  edge_radius : ℚ := 2 / 5
  edge_weight : ℚ := -20
  outside_importance : ℚ := -1 / 2
  rule_of_thirds : Bool := true
  saturation_bias : ℚ := 1 / 5
  saturation_weight : ℚ := 3 / 10
  boost_weight : ℚ := 100
  score_down_sample : ℕ := 8
  skin_bias : ℚ := 1 / 100
  skin_color_r : ℚ := 78 / 100
  skin_color_g : ℚ := 57 / 100
  skin_color_b : ℚ := 44 / 100
  skin_weight : ℚ := 9 / 5
  deriving DecidableEq

/-- A candidate crop rectangle as generated by `SmartCrop.crops`: integer
grid position, rational dimensions `crop_width*scale`, `crop_height*scale`. -/
structure Crop where
  x : ℕ
  y : ℕ
  width : ℚ
  height : ℚ
  deriving DecidableEq

/-- The score breakdown dict built by `SmartCrop.score`. -/
structure ScoreB where
  detail : ℚ
  saturation : ℚ
  skin : ℚ
  boost : ℚ
  total : ℚ
  deriving DecidableEq

/-- A candidate with its attached score (`crop['score'] = ...` in `analyse`). -/
structure ScoredCrop where
  crop : Crop
  score : ScoreB
  deriving DecidableEq

/-- One cell of the downsampled RGBA feature map: R=skin, G=edge,
B=saturation, A=boost, each an 8-bit intensity. -/
structure Pixel where
  r : ℕ
  g : ℕ
  b : ℕ
  a : ℕ
  deriving DecidableEq

/-- The dict returned by `SmartCrop.analyse` (the debug `analyse_image` is
not modelled; it is external PIL data unread by the algorithm). -/
structure AnalyseResult where
  crops : List ScoredCrop
  top_crop : Option ScoredCrop
  deriving DecidableEq

/-- A crop after `SmartCrop.crop` rescales it to original resolution:
all four rectangle components floored to integers. -/
structure RCrop where
  x : ℤ
  y : ℤ
  width : ℤ
  height : ℤ
  score : ScoreB
  deriving DecidableEq

/-- The dict returned by `SmartCrop.crop`. -/
structure CropResult where
  crops : List RCrop
  top_crop : Option RCrop
  deriving DecidableEq

/-- The exceptions the modelled paths can raise. -/
inductive PyError where
  | zeroDivision
  | valueError
  deriving DecidableEq

/-- A boost region (`{'x','y','width','height','weight'}` dict). -/
structure Boost where
  x : ℚ
  y : ℚ
  width : ℚ
  height : ℚ
  weight : ℚ
  deriving DecidableEq

/-- `SmartCrop.importance(crop, x, y)`.  `sq` stands for `math.sqrt`. -/
def importance (cfg : Config) (sq : ℚ → ℚ) (crop : Crop) (x y : ℚ) : ℚ :=
  if (crop.x : ℚ) > x ∨ x ≥ (crop.x : ℚ) + crop.width ∨
      (crop.y : ℚ) > y ∨ y ≥ (crop.y : ℚ) + crop.height then
    cfg.outside_importance
  else
    let x' := (x - (crop.x : ℚ)) / crop.width
    let y' := (y - (crop.y : ℚ)) / crop.height
    let px := |1 / 2 - x'| * 2
    let py := |1 / 2 - y'| * 2
    let dx := max (px - 1 + cfg.edge_radius) 0
    let dy := max (py - 1 + cfg.edge_radius) 0
    let d := (dx * dx + dy * dy) * cfg.edge_weight
    let s := 141 / 100 - sq (px * px + py * py)
    let s' := if cfg.rule_of_thirds then
        s + (max 0 (s + d + 1 / 2) * (12 / 10)) * (thirds px + thirds py)
      else s
    s' + d

/-- `SmartCrop.score(target_image, crop)`: `data` is the flattened downsampled
feature map (`target_image.getdata()`), `tw × th` its dimensions
(`target_image.size`).  The nested loops run `x`/`y` over multiples of
`score_down_sample` below `tw*D`/`th*D` and accumulate the four channels. -/
def score (cfg : Config) (sq : ℚ → ℚ) (data : ℕ → Pixel) (tw th : ℕ)
    (crop : Crop) : ScoreB :=
  let D := cfg.score_down_sample
  let base := (pyRangeUp (th * D) D).foldl (fun (acc : ScoreB) (y : ℕ) =>
    (pyRangeUp (tw * D) D).foldl (fun (acc : ScoreB) (x : ℕ) =>
      let index := (⌊(y : ℚ) * (1 / (D : ℚ))⌋ * tw + ⌊(x : ℚ) * (1 / (D : ℚ))⌋).toNat
      let imp := importance cfg sq crop (x : ℚ) (y : ℚ)
      let detail := ((data index).g : ℚ) / 255
      { acc with
        skin := acc.skin + ((data index).r : ℚ) / 255 * (detail + cfg.skin_bias) * imp
        detail := acc.detail + detail * imp
        saturation := acc.saturation +
          ((data index).b : ℚ) / 255 * (detail + cfg.saturation_bias) * imp
        boost := acc.boost + ((data index).a : ℚ) / 255 * imp }) acc)
    (⟨0, 0, 0, 0, 0⟩ : ScoreB)
  { base with
    total := (base.detail * cfg.detail_weight + base.skin * cfg.skin_weight +
      base.saturation * cfg.saturation_weight + base.boost * cfg.boost_weight) /
      (crop.width * crop.height) }

/-- The scale grid of `SmartCrop.crops`:
`(i / 100 for i in range(int(max_scale*100), int((min_scale-scale_step)*100), -int(scale_step*100)))`. -/
def scaleList (max_scale min_scale scale_step : ℚ) : List ℚ :=
  (pyRange (pyInt (max_scale * 100)) (pyInt ((min_scale - scale_step) * 100))
    (-pyInt (scale_step * 100))).map (fun (i : ℤ) => (i : ℚ) / 100)

/-- The candidate list built by the loops of `SmartCrop.crops`: for each scale,
`y` then `x` run over multiples of `step`, breaking as soon as the crop at that
offset sticks out of the image. -/
def cropsCandidates (image_width image_height : ℕ) (crop_width crop_height : ℤ)
    (max_scale min_scale scale_step : ℚ) (step : ℕ) : List Crop :=
  (scaleList max_scale min_scale scale_step).flatMap (fun (scale : ℚ) =>
    (takeWhileP (fun (y : ℕ) => ¬((y : ℚ) + (crop_height : ℚ) * scale > (image_height : ℚ)))
        (pyRangeUp image_height step)).flatMap (fun (y : ℕ) =>
      (takeWhileP (fun (x : ℕ) => ¬((x : ℚ) + (crop_width : ℚ) * scale > (image_width : ℚ)))
          (pyRangeUp image_width step)).map (fun (x : ℕ) =>
        (⟨x, y, (crop_width : ℚ) * scale, (crop_height : ℚ) * scale⟩ : Crop))))

/-- `SmartCrop.crops`.  Evaluating the scale generator's
`range(…, -int(scale_step*100))` raises `ValueError` at once when the
quantized step is zero (Python evaluates a generator expression's outermost
iterable eagerly, before any iteration); otherwise the loops build the
candidate list, and an empty list raises `ValueError(locals())`. -/
def crops (image_width image_height : ℕ) (crop_width crop_height : ℤ)
    (max_scale min_scale scale_step : ℚ) (step : ℕ) : Except PyError (List Crop) :=
  if pyInt (scale_step * 100) = 0 then .error .valueError
  else if cropsCandidates image_width image_height crop_width crop_height
      max_scale min_scale scale_step step = [] then .error .valueError
  else .ok (cropsCandidates image_width image_height crop_width crop_height
      max_scale min_scale scale_step step)

/-- One step of the top-crop tracking loop in `SmartCrop.analyse`:
`if crop['score']['total'] > top_score: top_crop, top_score = crop, ...`. -/
def selStep (acc : Option ScoredCrop × ℚ) (sc : ScoredCrop) : Option ScoredCrop × ℚ :=
  if acc.2 < sc.score.total then (some sc, sc.score.total) else acc

/-- The full top-crop selection loop of `SmartCrop.analyse`, starting from
`top_crop = None`, `top_score = -sys.maxsize`. -/
def selectTop (l : List ScoredCrop) : Option ScoredCrop × ℚ :=
  l.foldl selStep (none, -(2 ^ 63 - 1))

/-- `SmartCrop.analyse`: generate candidates, score each against the
downsampled feature map, and track the best.  The feature map (built by the
external PIL convolution/merge/LANCZOS-thumbnail pipeline from the detector
outputs) enters as the parameters `data`, `tw`, `th`. -/
def analyse (cfg : Config) (sq : ℚ → ℚ) (data : ℕ → Pixel) (tw th : ℕ)
    (image_width image_height : ℕ) (crop_width crop_height : ℤ)
    (max_scale min_scale scale_step : ℚ) (step : ℕ) :
    Except PyError AnalyseResult :=
  (crops image_width image_height crop_width crop_height
      max_scale min_scale scale_step step).map (fun cs =>
    let scored := cs.map (fun c => ⟨c, score cfg sq data tw th c⟩)
    ⟨scored, (selectTop scored).1⟩)

/-- The coordinate rescaling at the end of `SmartCrop.crop`:
`crop[k] = int(math.floor(crop[k] / prescale_size))` for x, y, width, height. -/
def rescaleCrop (p : ℚ) (sc : ScoredCrop) : RCrop :=
  ⟨⌊(sc.crop.x : ℚ) / p⌋, ⌊(sc.crop.y : ℚ) / p⌋,
    ⌊sc.crop.width / p⌋, ⌊sc.crop.height / p⌋, sc.score⟩

/-- The tail of `SmartCrop.crop` after the prescale decision: run `analyse`
on the working image of size `W × H` with target crop `cw × ch`, then map
every candidate (the tracked top crop is one of them) back through `1/p`. -/
def cropFinish (cfg : Config) (sq : ℚ → ℚ) (data : ℕ → Pixel) (tw th : ℕ)
    (p : ℚ) (W H : ℕ) (cw ch : ℤ) (max_scale min_scale scale_step : ℚ)
    (step : ℕ) : Except PyError CropResult :=
  (analyse cfg sq data tw th W H cw ch max_scale min_scale scale_step step).map
    (fun r => ⟨r.crops.map (rescaleCrop p), r.top_crop.map (rescaleCrop p)⟩)

/-- `SmartCrop.crop(image, width, height, prescale, ...)`.  Python raises
`ZeroDivisionError` at `image.size[0] / width` when `width == 0` (same for
`height`), and at `1 / scale` when `scale == 0`.  `thumb` models the external
`PIL.Image.thumbnail` call: given the requested box it returns the new image
size (theorems constrain it by PIL's contract of fitting inside the box). -/
def crop (cfg : Config) (sq : ℚ → ℚ) (data : ℕ → Pixel) (tw th : ℕ)
    (thumb : ℤ → ℤ → ℕ × ℕ) (image_width image_height : ℕ) (width height : ℤ)
    (prescale : Bool) (max_scale min_scale scale_step : ℚ) (step : ℕ) :
    Except PyError CropResult :=
  if width = 0 ∨ height = 0 then .error .zeroDivision else
  let scale : ℚ := min ((image_width : ℚ) / (width : ℚ)) ((image_height : ℚ) / (height : ℚ))
  let crop_width := ⌊(width : ℚ) * scale⌋
  let crop_height := ⌊(height : ℚ) * scale⌋
  if scale = 0 then .error .zeroDivision else
  let min_scale' := min max_scale (max (1 / scale) min_scale)
  if prescale then
    if min_scale' = 0 then .error .zeroDivision else
    let prescale_size := 1 / scale / min_scale'
    if prescale_size < 1 then
      let WH := thumb (pyInt ((image_width : ℚ) * prescale_size))
        (pyInt ((image_height : ℚ) * prescale_size))
      cropFinish cfg sq data tw th prescale_size WH.1 WH.2
        ⌊(crop_width : ℚ) * prescale_size⌋ ⌊(crop_height : ℚ) * prescale_size⌋
        max_scale min_scale' scale_step step
    else
      cropFinish cfg sq data tw th 1 image_width image_height crop_width crop_height
        max_scale min_scale' scale_step step
  else
    cropFinish cfg sq data tw th 1 image_width image_height crop_width crop_height
      max_scale min_scale' scale_step step

/-- Per-pixel displacement vector `(rd, gd, bd)` of `SmartCrop.detect_skin`:
initialised to the negated reference skin color, and overwritten with
`channel/mag - skin_color` only where `abs(mag) >= 1e-6`
(`mag = sqrt(r*r + g*g + b*b)`). -/
def skinDisplacement (cfg : Config) (sq : ℚ → ℚ) (r g b : ℚ) : ℚ × ℚ × ℚ :=
  let mag := sq (r * r + g * g + b * b)
  if ¬(|mag| < 1 / 1000000) then
    (r / mag - cfg.skin_color_r, g / mag - cfg.skin_color_g, b / mag - cfg.skin_color_b)
  else
    (-cfg.skin_color_r, -cfg.skin_color_g, -cfg.skin_color_b)

/-- The squared Euclidean norm of the displacement: the radicand of the
distance `sqrt(rd*rd + gd*gd + bd*bd)` in `detect_skin`. -/
def skinDistanceSq (cfg : Config) (sq : ℚ → ℚ) (r g b : ℚ) : ℚ :=
  let d := skinDisplacement cfg sq r g b
  d.1 * d.1 + d.2.1 * d.2.1 + d.2.2 * d.2.2

/-- Per-pixel skin likelihood before thresholding/masking:
`skin = 1 - sqrt(rd*rd + gd*gd + bd*bd)` in `detect_skin`. -/
def skinLikelihood (cfg : Config) (sq : ℚ → ℚ) (r g b : ℚ) : ℚ :=
  1 - sq (skinDistanceSq cfg sq r g b)

/-- Whether the cell at row `j`, column `i` of the boost grid lies in the
numpy slice `[int(y):int(y+height), int(x):int(x+width)]` that
`SmartCrop.applyBoost` adds to. -/
def boostCovers (b : Boost) (j i : ℕ) : Prop :=
  pyInt b.y ≤ (j : ℤ) ∧ (j : ℤ) < pyInt (b.y + b.height) ∧
  pyInt b.x ≤ (i : ℤ) ∧ (i : ℤ) < pyInt (b.x + b.width)

instance (b : Boost) (j i : ℕ) : Decidable (boostCovers b j i) := by
  unfold boostCovers
  infer_instance

/-- `SmartCrop.applyBoost(boost, image)`: add `weight * 255` on the slice
`image[y0:y1, x0:x1]`.  The float grid is modelled as a function from
(row, column) to its accumulated value. -/
def applyBoost (b : Boost) (g : ℕ → ℕ → ℚ) : ℕ → ℕ → ℚ :=
  fun j i => if boostCovers b j i then g j i + b.weight * 255 else g j i

/-- `SmartCrop.applyBoosts(image)`: start from `np.zeros((h, w))` and apply
every boost of `self.boosts` in order (`None` means no boosts). -/
def applyBoosts (boosts : Option (List Boost)) : ℕ → ℕ → ℚ :=
  match boosts with
  | none => fun _ _ => 0
  | some l => l.foldl (fun g b => applyBoost b g) (fun _ _ => 0)

/-- The final 8-bit boost channel: `od.astype('uint8')` truncates each cell
toward zero and wraps it modulo 256. -/
def boostChannel (boosts : Option (List Boost)) : ℕ → ℕ → ℤ :=
  fun j i => (pyInt (applyBoosts boosts j i)).emod 256

/-! ### Specification-side definitions

These follow the wording of the specification (not the code); the theorems
below compare them with the definitions translated from the source. -/

/-- The largest score total in a candidate list, starting the running maximum
at the loop's initial `-sys.maxsize` (spec: `max(c.total for c in candidates)`). -/
def maxTotal (l : List ScoredCrop) : ℚ :=
  l.foldl (fun a sc => max a sc.score.total) (-(2 ^ 63 - 1))

/-- Spec 4.3: scale values descending from `max_scale` in decrements of
`scale_step`, all quantized to hundredths, stopping at the exclusive lower
boundary `min_scale - scale_step`.  `M`, `m`, `s` are the three parameters in
hundredths. -/
def specScales (M m s : ℤ) : List ℚ :=
  takeWhileP (fun v => (m : ℚ) / 100 - (s : ℚ) / 100 < v)
    (((List.range ((M - (m - s)).toNat + 1)).map
      (fun (k : ℕ) => ((M : ℚ) - (k : ℚ) * (s : ℚ)) / 100)))

/-- Spec 4.3: offsets running over multiples of `step` from 0, aborting once
`offset + extent > size` (`extent` is the scaled crop dimension). -/
def specOffsets (size step : ℕ) (extent : ℚ) : List ℕ :=
  takeWhileP (fun (v : ℕ) => ¬((v : ℚ) + extent > (size : ℚ)))
    ((List.range (size + 1)).map (· * step))

/-- Spec 4.3, the whole candidate enumeration: for each scale (descending),
for each `y` (multiples of `step`, aborted at the bottom edge), for each `x`
(multiples of `step`, aborted at the right edge), the rectangle
`{x, y, crop_width*scale, crop_height*scale}`. -/
def cropsSpec (image_width image_height : ℕ) (crop_width crop_height : ℤ)
    (M m s : ℤ) (step : ℕ) : List Crop :=
  (specScales M m s).flatMap (fun (scale : ℚ) =>
    (specOffsets image_height step ((crop_height : ℚ) * scale)).flatMap (fun (y : ℕ) =>
      (specOffsets image_width step ((crop_width : ℚ) * scale)).map (fun (x : ℕ) =>
        (⟨x, y, (crop_width : ℚ) * scale, (crop_height : ℚ) * scale⟩ : Crop))))

/-! ### Helper definitions and lemmas -/

/-- A zero function standing in for `math.sqrt` in concrete witnesses; it
agrees with the real square root at the radicand `0`, the only point where
those witnesses evaluate it. -/
def sqZero : ℚ → ℚ := fun _ => 0

/-- The else-branch of `importance` as a function of the normalized offsets
`(x - crop.x) / crop.width` and `(y - crop.y) / crop.height` alone. -/
def importanceInner (cfg : Config) (sq : ℚ → ℚ) (x' y' : ℚ) : ℚ :=
  let px := |1 / 2 - x'| * 2
  let py := |1 / 2 - y'| * 2
  let dx := max (px - 1 + cfg.edge_radius) 0
  let dy := max (py - 1 + cfg.edge_radius) 0
  let d := (dx * dx + dy * dy) * cfg.edge_weight
  let s := 141 / 100 - sq (px * px + py * py)
  let s' := if cfg.rule_of_thirds then
      s + (max 0 (s + d + 1 / 2) * (12 / 10)) * (thirds px + thirds py)
    else s
  s' + d

theorem importance_eq (cfg : Config) (sq : ℚ → ℚ) (crop : Crop) (x y : ℚ) :
    importance cfg sq crop x y =
      if (crop.x : ℚ) > x ∨ x ≥ (crop.x : ℚ) + crop.width ∨
          (crop.y : ℚ) > y ∨ y ≥ (crop.y : ℚ) + crop.height then
        cfg.outside_importance
      else importanceInner cfg sq ((x - (crop.x : ℚ)) / crop.width)
        ((y - (crop.y : ℚ)) / crop.height) := rfl

/-- Running maximum of score totals over a list, from an arbitrary start. -/
def maxFrom (l : List ScoredCrop) (q : ℚ) : ℚ :=
  l.foldl (fun a sc => max a sc.score.total) q

theorem maxTotal_def (l : List ScoredCrop) : maxTotal l = maxFrom l (-(2 ^ 63 - 1)) := rfl

theorem le_maxFrom_init (l : List ScoredCrop) : ∀ q : ℚ, q ≤ maxFrom l q := by
  induction l with
  | nil => intro q; exact le_refl q
  | cons sc t ih =>
    intro q
    exact le_trans (le_max_left q sc.score.total) (ih (max q sc.score.total))

theorem le_maxFrom_mem (l : List ScoredCrop) :
    ∀ (q : ℚ) (sc : ScoredCrop), sc ∈ l → sc.score.total ≤ maxFrom l q := by
  induction l with
  | nil => intro q sc h; exact absurd h (List.not_mem_nil sc)
  | cons b t ih =>
    intro q sc h
    rcases List.mem_cons.1 h with h | h
    · subst h
      exact le_trans (le_max_right q sc.score.total) (le_maxFrom_init t _)
    · exact ih _ sc h

theorem maxFrom_attained (l : List ScoredCrop) :
    ∀ q : ℚ, maxFrom l q = q ∨ ∃ sc ∈ l, maxFrom l q = sc.score.total := by
  induction l with
  | nil => intro q; exact Or.inl rfl
  | cons b t ih =>
    intro q
    rcases ih (max q b.score.total) with h | ⟨sc, hm, he⟩
    · rcases max_cases q b.score.total with ⟨he, _⟩ | ⟨he, _⟩
      · exact Or.inl (by rw [maxFrom, List.foldl_cons] at *; rw [h, he])
      · exact Or.inr ⟨b, List.mem_cons_self b t,
          by rw [maxFrom, List.foldl_cons] at *; rw [h, he]⟩
    · exact Or.inr ⟨sc, List.mem_cons_of_mem b hm, he⟩

theorem findP_eq_some {p : α → Prop} [DecidablePred p] {l : List α} {b : α}
    (h : findP p l = some b) : p b ∧ b ∈ l := by
  induction l with
  | nil => exact absurd h (by simp [findP])
  | cons a t ih =>
    rw [findP] at h
    by_cases ha : p a
    · rw [if_pos ha] at h
      obtain rfl : a = b := by injection h
      exact ⟨ha, List.mem_cons_self a t⟩
    · rw [if_neg ha] at h
      obtain ⟨hb, hm⟩ := ih h
      exact ⟨hb, List.mem_cons_of_mem a hm⟩

theorem findP_some_of_exists {p : α → Prop} [DecidablePred p] {l : List α}
    (h : ∃ a ∈ l, p a) : ∃ b, findP p l = some b := by
  induction l with
  | nil => obtain ⟨a, ha, _⟩ := h; exact absurd ha (List.not_mem_nil a)
  | cons a t ih =>
    by_cases ha : p a
    · exact ⟨a, by rw [findP, if_pos ha]⟩
    · obtain ⟨c, hc, hpc⟩ := h
      rcases List.mem_cons.1 hc with rfl | hc
      · exact absurd hpc ha
      · obtain ⟨b, hb⟩ := ih ⟨c, hc, hpc⟩
        exact ⟨b, by rw [findP, if_neg ha, hb]⟩

/-- Characterization of the `analyse` selection loop from a state that already
holds a candidate whose total is the running maximum `t0`: the final running
maximum is the fold of `max` over the rest, the held candidate survives when
nothing beats `t0` strictly, and otherwise the selected crop is the first one
whose total reaches the overall maximum. -/
theorem selStep_foldl (l : List ScoredCrop) :
    ∀ (c0 : ScoredCrop) (t0 : ℚ),
      (l.foldl selStep (some c0, t0)).2 = maxFrom l t0 ∧
      (maxFrom l t0 ≤ t0 → (l.foldl selStep (some c0, t0)).1 = some c0) ∧
      (t0 < maxFrom l t0 →
        (l.foldl selStep (some c0, t0)).1 =
          findP (fun sc => maxFrom l t0 ≤ sc.score.total) l) := by
  induction l with
  | nil =>
    intro c0 t0
    exact ⟨rfl, fun _ => rfl, fun h => absurd h (lt_irrefl t0)⟩
  | cons b t ih =>
    intro c0 t0
    rw [List.foldl_cons]
    have hmf : maxFrom (b :: t) t0 = maxFrom t (max t0 b.score.total) := rfl
    by_cases hb : t0 < b.score.total
    · have hstep : selStep (some c0, t0) b = (some b, b.score.total) := by
        rw [selStep, if_pos hb]
      have hmax : max t0 b.score.total = b.score.total := max_eq_right (le_of_lt hb)
      obtain ⟨ih1, ih2, ih3⟩ := ih b b.score.total
      have hM : maxFrom (b :: t) t0 = maxFrom t b.score.total := by rw [hmf, hmax]
      refine ⟨by rw [hstep, ih1, hM], ?_, ?_⟩
      · intro hle
        exfalso
        have : b.score.total ≤ maxFrom (b :: t) t0 := by
          rw [hM]; exact le_maxFrom_init t _
        exact absurd (lt_of_lt_of_le hb (le_trans this hle)) (lt_irrefl t0)
      · intro _
        by_cases hMb : maxFrom t b.score.total ≤ b.score.total
        · rw [hstep, ih2 hMb, findP, if_pos (by rw [hM]; exact hMb)]
        · push_neg at hMb
          rw [hstep, ih3 hMb, findP, if_neg (by rw [hM]; exact not_le.2 hMb)]
          rw [hM]
    · have hstep : selStep (some c0, t0) b = (some c0, t0) := by
        rw [selStep, if_neg hb]
      have hmax : max t0 b.score.total = t0 := max_eq_left (le_of_not_lt hb)
      obtain ⟨ih1, ih2, ih3⟩ := ih c0 t0
      have hM : maxFrom (b :: t) t0 = maxFrom t t0 := by rw [hmf, hmax]
      refine ⟨by rw [hstep, ih1, hM], ?_, ?_⟩
      · intro hle
        rw [hstep]
        exact ih2 (by rw [hM] at hle; exact hle)
      · intro hlt
        rw [hM] at hlt
        rw [hstep, ih3 hlt, findP, if_neg]
        · rw [hM]
        · rw [hM]
          exact not_le.2 (lt_of_le_of_lt (le_of_not_lt hb) hlt)

/-- The selection loop on a non-empty list all of whose totals exceed the
initial `-sys.maxsize`: it returns the first candidate attaining the maximum
total. -/
theorem selectTop_spec (l : List ScoredCrop) (hne : l ≠ [])
    (hall : ∀ sc ∈ l, -(2 ^ 63 - 1) < sc.score.total) :
    (selectTop l).1 = findP (fun sc => maxTotal l ≤ sc.score.total) l ∧
    ∃ t, (selectTop l).1 = some t ∧ t.score.total = maxTotal l := by
  obtain ⟨b, t, rfl⟩ : ∃ b t, l = b :: t := by
    cases l with
    | nil => exact absurd rfl hne
    | cons b t => exact ⟨b, t, rfl⟩
  have hb : -(2 ^ 63 - 1 : ℚ) < b.score.total := hall b (List.mem_cons_self b t)
  have hstep : selStep (none, -(2 ^ 63 - 1)) b = (some b, b.score.total) := by
    rw [selStep, if_pos hb]
  have hM : maxTotal (b :: t) = maxFrom t b.score.total := by
    rw [maxTotal_def, maxFrom, List.foldl_cons, max_eq_right (le_of_lt hb)]
    rfl
  have hsel : selectTop (b :: t) = t.foldl selStep (some b, b.score.total) := by
    rw [selectTop, List.foldl_cons, hstep]
  obtain ⟨h1, h2, h3⟩ := selStep_foldl t b b.score.total
  by_cases hMb : maxFrom t b.score.total ≤ b.score.total
  · have htot : b.score.total = maxTotal (b :: t) := by
      rw [hM]
      exact le_antisymm (le_maxFrom_init t _) hMb
    refine ⟨?_, b, ?_, htot⟩
    · rw [hsel, h2 hMb, findP, if_pos (by rw [← htot])]
    · rw [hsel, h2 hMb]
  · push_neg at hMb
    have hfind : findP (fun sc => maxTotal (b :: t) ≤ sc.score.total) (b :: t) =
        findP (fun sc => maxFrom t b.score.total ≤ sc.score.total) t := by
      rw [findP, if_neg, hM]
      rw [hM]
      exact not_le.2 hMb
    refine ⟨by rw [hsel, h3 hMb, hfind], ?_⟩
    rcases maxFrom_attained t b.score.total with he | ⟨sc, hm, he⟩
    · rw [he] at hMb
      exact absurd hMb (lt_irrefl b.score.total)
    · obtain ⟨w, hw⟩ := @findP_some_of_exists ScoredCrop
        (fun sc => maxFrom t b.score.total ≤ sc.score.total) _ t
        ⟨sc, hm, le_of_eq he⟩
      obtain ⟨hpw, hmw⟩ := findP_eq_some hw
      refine ⟨w, by rw [hsel, h3 hMb, hw], ?_⟩
      rw [hM]
      exact le_antisymm (le_maxFrom_mem t _ w hmw) hpw

theorem crops_eq_ok {W H : ℕ} {cw ch : ℤ} {maxs mins sstep : ℚ} {step : ℕ}
    {cs : List Crop} (h : crops W H cw ch maxs mins sstep step = .ok cs) :
    cs = cropsCandidates W H cw ch maxs mins sstep step ∧ cs ≠ [] := by
  rw [crops] at h
  by_cases hst : pyInt (sstep * 100) = 0
  · rw [if_pos hst] at h
    exact absurd h (by intro hh; cases hh)
  rw [if_neg hst] at h
  by_cases he : cropsCandidates W H cw ch maxs mins sstep step = []
  · rw [if_pos he] at h
    exact absurd h (by intro hh; cases hh)
  · rw [if_neg he] at h
    obtain rfl : cropsCandidates W H cw ch maxs mins sstep step = cs := by
      injection h
    exact ⟨rfl, he⟩

/-! ### C1 -/

/-- C1: whenever `analyse` returns a result (and every candidate total
exceeds the loop's `-sys.maxsize` start, as any real score does), the returned
`top_crop` is a candidate whose score total equals the maximum total over the
whole candidate list, and it is the *first* candidate in generation order
attaining that maximum — the strict `>` comparison makes first-seen win ties. -/
theorem analyse_top_first_max (cfg : Config) (sq : ℚ → ℚ) (data : ℕ → Pixel)
    (tw th W H : ℕ) (cw ch : ℤ) (maxs mins sstep : ℚ) (step : ℕ)
    (r : AnalyseResult)
    (hok : analyse cfg sq data tw th W H cw ch maxs mins sstep step = .ok r)
    (hall : ∀ sc ∈ r.crops, -(2 ^ 63 - 1) < sc.score.total) :
    ∃ t, r.top_crop = some t ∧ t.score.total = maxTotal r.crops ∧
      (∀ sc ∈ r.crops, sc.score.total ≤ maxTotal r.crops) ∧
      r.top_crop = findP (fun sc => maxTotal r.crops ≤ sc.score.total) r.crops := by
  rw [analyse] at hok
  cases hc : crops W H cw ch maxs mins sstep step with
  | error e =>
    rw [hc] at hok
    exact absurd hok (by intro hh; cases hh)
  | ok cs =>
    rw [hc] at hok
    obtain ⟨-, hne⟩ := crops_eq_ok hc
    have hok' : (Except.ok
        (⟨cs.map (fun c => ⟨c, score cfg sq data tw th c⟩),
          (selectTop (cs.map (fun c => ⟨c, score cfg sq data tw th c⟩))).1⟩ :
          AnalyseResult) : Except PyError AnalyseResult) = .ok r := hok
    have hr : r = ⟨cs.map (fun c => ⟨c, score cfg sq data tw th c⟩),
        (selectTop (cs.map (fun c => ⟨c, score cfg sq data tw th c⟩))).1⟩ := by
      injection hok' with hh
      exact hh.symm
    subst hr
    have hne' : cs.map (fun c => (⟨c, score cfg sq data tw th c⟩ : ScoredCrop)) ≠ [] := by
      intro hh
      exact hne (List.map_eq_nil_iff.1 hh)
    obtain ⟨hfind, t, htop, htot⟩ := selectTop_spec _ hne' hall
    exact ⟨t, htop, htot, fun sc hm => by
      rw [maxTotal_def]
      exact le_maxFrom_mem _ _ sc hm, hfind⟩

/-- An all-zero feature map, for concrete witnesses. -/
def dataZero : ℕ → Pixel := fun _ => ⟨0, 0, 0, 0⟩

/-- On an all-zero feature map every accumulator of `score` stays `0` and the
total is `0 / area = 0`, whatever the crop and configuration. -/
theorem score_dataZero (cfg : Config) (sq : ℚ → ℚ) (tw th : ℕ) (c : Crop) :
    score cfg sq dataZero tw th c = ⟨0, 0, 0, 0, 0⟩ := by
  rw [score]
  have hin : ∀ (xs : List ℕ) (y : ℕ) (acc : ScoreB),
      xs.foldl (fun (acc : ScoreB) (x : ℕ) =>
        let index := (⌊(y : ℚ) * (1 / (cfg.score_down_sample : ℚ))⌋ * tw +
          ⌊(x : ℚ) * (1 / (cfg.score_down_sample : ℚ))⌋).toNat
        let imp := importance cfg sq c (x : ℚ) (y : ℚ)
        let detail := ((dataZero index).g : ℚ) / 255
        { acc with
          skin := acc.skin + ((dataZero index).r : ℚ) / 255 * (detail + cfg.skin_bias) * imp
          detail := acc.detail + detail * imp
          saturation := acc.saturation +
            ((dataZero index).b : ℚ) / 255 * (detail + cfg.saturation_bias) * imp
          boost := acc.boost + ((dataZero index).a : ℚ) / 255 * imp }) acc = acc := by
    intro xs y
    induction xs with
    | nil => intro acc; rfl
    | cons a t ih =>
      intro acc
      rw [List.foldl_cons]
      have hs : (⟨acc.detail + 0 / 255 * importance cfg sq c (a : ℚ) (y : ℚ),
          acc.saturation + 0 / 255 * (0 / 255 + cfg.saturation_bias) *
            importance cfg sq c (a : ℚ) (y : ℚ),
          acc.skin + 0 / 255 * (0 / 255 + cfg.skin_bias) *
            importance cfg sq c (a : ℚ) (y : ℚ),
          acc.boost + 0 / 255 * importance cfg sq c (a : ℚ) (y : ℚ),
          acc.total⟩ : ScoreB) = acc := by
        cases acc
        simp
      rw [ih]
      exact hs
  have hout : ∀ (ys : List ℕ) (acc : ScoreB),
      ys.foldl (fun (acc : ScoreB) (y : ℕ) =>
        (pyRangeUp (tw * cfg.score_down_sample) cfg.score_down_sample).foldl
          (fun (acc : ScoreB) (x : ℕ) =>
            let index := (⌊(y : ℚ) * (1 / (cfg.score_down_sample : ℚ))⌋ * tw +
              ⌊(x : ℚ) * (1 / (cfg.score_down_sample : ℚ))⌋).toNat
            let imp := importance cfg sq c (x : ℚ) (y : ℚ)
            let detail := ((dataZero index).g : ℚ) / 255
            { acc with
              skin := acc.skin + ((dataZero index).r : ℚ) / 255 * (detail + cfg.skin_bias) * imp
              detail := acc.detail + detail * imp
              saturation := acc.saturation +
                ((dataZero index).b : ℚ) / 255 * (detail + cfg.saturation_bias) * imp
              boost := acc.boost + ((dataZero index).a : ℚ) / 255 * imp }) acc) acc = acc := by
    intro ys
    induction ys with
    | nil => intro acc; rfl
    | cons a t ih =>
      intro acc
      rw [List.foldl_cons, hin _ a acc, ih]
  rw [hout]
  show ({ (⟨0, 0, 0, 0, 0⟩ : ScoreB) with total := _ } : ScoreB) = _
  norm_num

theorem scaleList_one : scaleList 1 1 (1 / 10) = [1] := by
  have h1 : pyInt ((1 : ℚ) * 100) = 100 := by norm_num [pyInt]
  have h2 : pyInt (((1 : ℚ) - 1 / 10) * 100) = 90 := by norm_num [pyInt]
  have h3 : pyInt ((1 : ℚ) / 10 * 100) = 10 := by norm_num [pyInt]
  rw [scaleList, h1, h2, h3]
  rw [show pyRange 100 90 (-10) = [100] from rfl]
  norm_num

theorem cropsCandidates_8 : cropsCandidates 8 8 8 8 1 1 (1 / 10) 8 =
    [⟨0, 0, 8, 8⟩] := by
  rw [cropsCandidates, scaleList_one]
  rw [show pyRangeUp 8 8 = [0] from rfl]
  norm_num [takeWhileP]

theorem analyse_concrete : analyse {} sqZero dataZero 1 1 8 8 8 8 1 1 (1 / 10) 8 =
    .ok ⟨[⟨⟨0, 0, 8, 8⟩, ⟨0, 0, 0, 0, 0⟩⟩], some ⟨⟨0, 0, 8, 8⟩, ⟨0, 0, 0, 0, 0⟩⟩⟩ := by
  have hc : crops 8 8 8 8 1 1 (1 / 10) 8 = .ok [⟨0, 0, 8, 8⟩] := by
    rw [crops, if_neg (show ¬pyInt ((1 : ℚ) / 10 * 100) = 0 by norm_num [pyInt]),
      cropsCandidates_8]
    norm_num
  rw [analyse, hc]
  show Except.ok _ = _
  simp only [List.map_cons, List.map_nil, score_dataZero]
  rw [show selectTop [⟨⟨0, 0, 8, 8⟩, ⟨0, 0, 0, 0, 0⟩⟩] =
      selStep (none, -(2 ^ 63 - 1)) ⟨⟨0, 0, 8, 8⟩, ⟨0, 0, 0, 0, 0⟩⟩ from rfl]
  rw [selStep, if_pos (by norm_num)]

/-- Witness for C1: a concrete 8×8 image, 8×8 crop, one candidate. -/
theorem analyse_top_first_max_witness :
    ∃ t, (⟨[⟨⟨0, 0, 8, 8⟩, ⟨0, 0, 0, 0, 0⟩⟩], some ⟨⟨0, 0, 8, 8⟩, ⟨0, 0, 0, 0, 0⟩⟩⟩ :
        AnalyseResult).top_crop = some t ∧
      t.score.total = maxTotal (⟨[⟨⟨0, 0, 8, 8⟩, ⟨0, 0, 0, 0, 0⟩⟩],
        some ⟨⟨0, 0, 8, 8⟩, ⟨0, 0, 0, 0, 0⟩⟩⟩ : AnalyseResult).crops ∧
      (∀ sc ∈ (⟨[⟨⟨0, 0, 8, 8⟩, ⟨0, 0, 0, 0, 0⟩⟩],
          some ⟨⟨0, 0, 8, 8⟩, ⟨0, 0, 0, 0, 0⟩⟩⟩ : AnalyseResult).crops,
        sc.score.total ≤ maxTotal (⟨[⟨⟨0, 0, 8, 8⟩, ⟨0, 0, 0, 0, 0⟩⟩],
          some ⟨⟨0, 0, 8, 8⟩, ⟨0, 0, 0, 0, 0⟩⟩⟩ : AnalyseResult).crops) ∧
      (⟨[⟨⟨0, 0, 8, 8⟩, ⟨0, 0, 0, 0, 0⟩⟩], some ⟨⟨0, 0, 8, 8⟩, ⟨0, 0, 0, 0, 0⟩⟩⟩ :
        AnalyseResult).top_crop =
        findP (fun sc => maxTotal (⟨[⟨⟨0, 0, 8, 8⟩, ⟨0, 0, 0, 0, 0⟩⟩],
          some ⟨⟨0, 0, 8, 8⟩, ⟨0, 0, 0, 0, 0⟩⟩⟩ : AnalyseResult).crops ≤ sc.score.total)
          (⟨[⟨⟨0, 0, 8, 8⟩, ⟨0, 0, 0, 0, 0⟩⟩], some ⟨⟨0, 0, 8, 8⟩, ⟨0, 0, 0, 0, 0⟩⟩⟩ :
            AnalyseResult).crops :=
  analyse_top_first_max {} sqZero dataZero 1 1 8 8 8 8 1 1 (1 / 10) 8 _
    analyse_concrete (by
      intro sc hm
      rw [List.mem_singleton] at hm
      subst hm
      norm_num)

theorem mem_takeWhileP {p : α → Prop} [DecidablePred p] :
    ∀ {l : List α} {a : α}, a ∈ takeWhileP p l → p a ∧ a ∈ l := by
  intro l
  induction l with
  | nil => intro a h; exact absurd h (by rw [takeWhileP]; exact List.not_mem_nil a)
  | cons b t ih =>
    intro a h
    rw [takeWhileP] at h
    by_cases hb : p b
    · rw [if_pos hb] at h
      rcases List.mem_cons.1 h with rfl | h
      · exact ⟨hb, List.mem_cons_self a t⟩
      · obtain ⟨hpa, hm⟩ := ih h
        exact ⟨hpa, List.mem_cons_of_mem b hm⟩
    · rw [if_neg hb] at h
      exact absurd h (List.not_mem_nil a)

theorem takeWhileP_cons_eq_nil_iff {p : α → Prop} [DecidablePred p] (a : α) (l : List α) :
    takeWhileP p (a :: l) = [] ↔ ¬p a := by
  rw [takeWhileP]
  by_cases h : p a
  · rw [if_pos h]
    simp [h]
  · rw [if_neg h]
    simp [h]

theorem pyRangeUp_cons (n step : ℕ) (hn : 0 < n) (hs : 0 < step) :
    ∃ t, pyRangeUp n step = 0 :: t := by
  rw [pyRangeUp]
  have hone : 1 ≤ (n + step - 1) / step := by
    rw [Nat.one_le_div_iff hs]
    omega
  obtain ⟨k, hk⟩ : ∃ k, (n + step - 1) / step = k + 1 :=
    ⟨(n + step - 1) / step - 1, by omega⟩
  rw [hk, List.range_succ_eq_map, List.map_cons]
  exact ⟨_, by rw [Nat.zero_mul]⟩

theorem cropsCandidates_eq_nil_iff (W H : ℕ) (cw ch : ℤ) (maxs mins sstep : ℚ)
    (step : ℕ) (hW : 0 < W) (hH : 0 < H) (hstep : 0 < step) :
    cropsCandidates W H cw ch maxs mins sstep step = [] ↔
      ∀ s ∈ scaleList maxs mins sstep,
        ¬((cw : ℚ) * s ≤ (W : ℚ) ∧ (ch : ℚ) * s ≤ (H : ℚ)) := by
  obtain ⟨ty, hty⟩ := pyRangeUp_cons H step hH hstep
  obtain ⟨tx, htx⟩ := pyRangeUp_cons W step hW hstep
  have hXnil : ∀ s : ℚ, (takeWhileP (fun (x : ℕ) => ¬((x : ℚ) + (cw : ℚ) * s > (W : ℚ)))
      (pyRangeUp W step) = []) ↔ (cw : ℚ) * s > (W : ℚ) := by
    intro s
    rw [htx, takeWhileP_cons_eq_nil_iff, not_not, Nat.cast_zero, zero_add]
  rw [cropsCandidates, List.flatMap_eq_nil_iff]
  refine forall_congr' (fun s => ?_)
  refine imp_congr_right (fun _ => ?_)
  rw [List.flatMap_eq_nil_iff]
  constructor
  · intro hall
    rintro ⟨hx, hy⟩
    have hp0 : ¬(((0 : ℕ) : ℚ) + (ch : ℚ) * s > (H : ℚ)) := by
      rw [Nat.cast_zero, zero_add]
      exact not_lt.2 hy
    have h0mem : (0 : ℕ) ∈ takeWhileP
        (fun (y : ℕ) => ¬((y : ℚ) + (ch : ℚ) * s > (H : ℚ))) (pyRangeUp H step) := by
      rw [hty, takeWhileP, if_pos hp0]
      exact List.mem_cons_self _ _
    have hmap := hall 0 h0mem
    rw [List.map_eq_nil_iff, hXnil s] at hmap
    exact absurd hx (not_le.2 hmap)
  · intro hno y hy
    obtain ⟨hpy, -⟩ := mem_takeWhileP hy
    have hchs : (ch : ℚ) * s ≤ (H : ℚ) := by
      have hyn : (0 : ℚ) ≤ (y : ℚ) := Nat.cast_nonneg y
      have hle := not_lt.1 hpy
      linarith
    have hcws : ¬((cw : ℚ) * s ≤ (W : ℚ)) := fun hcw => hno ⟨hcw, hchs⟩
    rw [List.map_eq_nil_iff, hXnil s]
    exact not_le.1 hcws

/-! ### C4 -/

/-- C4: `crops` raises (ValueError) exactly when the scale/position grid
yields zero candidate rectangles, which — for a positive-size image and
positive step — happens exactly when for no scale in the grid the scaled crop
fits the image at the origin; otherwise it returns the non-empty candidate
list without raising. When the quantized step `int(scale_step * 100)` is zero
the `range` construction itself raises ValueError; the scale grid is then
empty, so both sides of the equivalence hold and the claim covers this case
as well. -/
theorem crops_error_iff_no_fit (W H : ℕ) (cw ch : ℤ) (maxs mins sstep : ℚ)
    (step : ℕ) (hW : 0 < W) (hH : 0 < H) (hstep : 0 < step) :
    (crops W H cw ch maxs mins sstep step = .error .valueError ↔
      ∀ s ∈ scaleList maxs mins sstep,
        ¬((cw : ℚ) * s ≤ (W : ℚ) ∧ (ch : ℚ) * s ≤ (H : ℚ))) ∧
    ((∃ s ∈ scaleList maxs mins sstep,
        (cw : ℚ) * s ≤ (W : ℚ) ∧ (ch : ℚ) * s ≤ (H : ℚ)) →
      crops W H cw ch maxs mins sstep step =
        .ok (cropsCandidates W H cw ch maxs mins sstep step) ∧
      cropsCandidates W H cw ch maxs mins sstep step ≠ []) := by
  have hiff := cropsCandidates_eq_nil_iff W H cw ch maxs mins sstep step hW hH hstep
  by_cases hq : pyInt (sstep * 100) = 0
  · have hsl : scaleList maxs mins sstep = [] := by
      rw [scaleList, hq]
      rfl
    rw [crops, if_pos hq]
    refine ⟨⟨fun _ s hs => ?_, fun _ => rfl⟩, ?_⟩
    · rw [hsl] at hs
      exact absurd hs (List.not_mem_nil s)
    · rintro ⟨s, hs, -⟩
      rw [hsl] at hs
      exact absurd hs (List.not_mem_nil s)
  constructor
  · rw [crops, if_neg hq]
    by_cases he : cropsCandidates W H cw ch maxs mins sstep step = []
    · rw [if_pos he]
      exact ⟨fun _ => hiff.1 he, fun _ => rfl⟩
    · rw [if_neg he]
      constructor
      · intro h; cases h
      · intro h
        exact absurd (hiff.2 h) he
  · rintro ⟨s, hm, hfit⟩
    have hne : cropsCandidates W H cw ch maxs mins sstep step ≠ [] := by
      intro he
      exact (hiff.1 he) s hm hfit
    rw [crops, if_neg hq, if_neg hne]
    exact ⟨rfl, hne⟩

/-- Witness for C4 on a concrete 8×8 image with an 8×8 crop at scales
`[1]`: a candidate fits, so no error is raised. -/
theorem crops_error_iff_no_fit_witness :
    (crops 8 8 8 8 1 1 (1 / 10) 8 = .error .valueError ↔
      ∀ s ∈ scaleList 1 1 (1 / 10),
        ¬(((8 : ℤ) : ℚ) * s ≤ ((8 : ℕ) : ℚ) ∧ ((8 : ℤ) : ℚ) * s ≤ ((8 : ℕ) : ℚ))) ∧
    ((∃ s ∈ scaleList 1 1 (1 / 10),
        ((8 : ℤ) : ℚ) * s ≤ ((8 : ℕ) : ℚ) ∧ ((8 : ℤ) : ℚ) * s ≤ ((8 : ℕ) : ℚ)) →
      crops 8 8 8 8 1 1 (1 / 10) 8 =
        .ok (cropsCandidates 8 8 8 8 1 1 (1 / 10) 8) ∧
      cropsCandidates 8 8 8 8 1 1 (1 / 10) 8 ≠ []) :=
  crops_error_iff_no_fit 8 8 8 8 1 1 (1 / 10) 8 (by norm_num) (by norm_num) (by norm_num)

/-! ### C8 -/

/-- A thumbnail model that returns exactly the requested box (clamped to ℕ);
it satisfies PIL's fits-the-box contract. -/
def thumbFit : ℤ → ℤ → ℕ × ℕ := fun bx bh => (bx.toNat, bh.toNat)

/-- C8 (amended): `crop` fails with `ZeroDivisionError` before any analysis
runs when the requested width or height is exactly `0`, or when the targets
are positive and the source image has zero area.  (Negative target dimensions
are NOT rejected — see the counterexample.)  The error is the same for every
feature map, scorer input and thumbnail function, i.e. it precedes analysis. -/
theorem crop_degenerate_rejected (cfg : Config) (sq : ℚ → ℚ) (data : ℕ → Pixel)
    (tw th : ℕ) (thumb : ℤ → ℤ → ℕ × ℕ) (image_width image_height : ℕ)
    (width height : ℤ) (prescale : Bool) (max_scale min_scale scale_step : ℚ)
    (step : ℕ)
    (h : width = 0 ∨ height = 0 ∨
      (0 < width ∧ 0 < height ∧ (image_width = 0 ∨ image_height = 0))) :
    crop cfg sq data tw th thumb image_width image_height width height
      prescale max_scale min_scale scale_step step = .error .zeroDivision := by
  rcases h with h | h | ⟨hw, hh, hwh⟩
  · rw [crop, if_pos (Or.inl h)]
  · rw [crop, if_pos (Or.inr h)]
  · have h01 : ¬(width = 0 ∨ height = 0) := by
      rintro (h0 | h0) <;> omega
    rw [crop, if_neg h01]
    have hs0 : min ((image_width : ℚ) / (width : ℚ)) ((image_height : ℚ) / (height : ℚ)) = 0 := by
      rcases hwh with h0 | h0
      · rw [h0]
        rw [Nat.cast_zero, zero_div]
        refine min_eq_left ?_
        positivity
      · rw [h0]
        rw [Nat.cast_zero, zero_div]
        refine min_eq_right ?_
        positivity
    show (if min ((image_width : ℚ) / (width : ℚ)) ((image_height : ℚ) / (height : ℚ)) = 0
        then (Except.error PyError.zeroDivision : Except PyError CropResult) else _) = _
    rw [if_pos hs0]

/-- Witness for C8 (amended): `width = 0` on an 8×8 image is rejected with
`ZeroDivisionError`. -/
theorem crop_degenerate_rejected_witness :
    crop {} sqZero dataZero 1 1 thumbFit 8 8 0 4 true 1 (9 / 10) (1 / 10) 8 =
      .error .zeroDivision :=
  crop_degenerate_rejected {} sqZero dataZero 1 1 thumbFit 8 8 0 4 true 1 (9 / 10)
    (1 / 10) 8 (Or.inl rfl)

theorem selStep_of_lt (acc : Option ScoredCrop × ℚ) (sc : ScoredCrop)
    (h : acc.2 < sc.score.total) : selStep acc sc = (some sc, sc.score.total) := by
  rw [selStep, if_pos h]

theorem selStep_of_ge (acc : Option ScoredCrop × ℚ) (sc : ScoredCrop)
    (h : ¬acc.2 < sc.score.total) : selStep acc sc = acc := by
  rw [selStep, if_neg h]

theorem scaleList_descend : scaleList 1 (9 / 10) (1 / 10) = [1, 9 / 10] := by
  have h1 : pyInt ((1 : ℚ) * 100) = 100 := by norm_num [pyInt]
  have h2 : pyInt (((9 : ℚ) / 10 - 1 / 10) * 100) = 80 := by norm_num [pyInt]
  have h3 : pyInt ((1 : ℚ) / 10 * 100) = 10 := by norm_num [pyInt]
  rw [scaleList, h1, h2, h3]
  rw [show pyRange 100 80 (-10) = [100, 90] from rfl]
  norm_num

/-- Counterexample to C8: with target width `-4` (⩽ 0) on an 8×8 image,
`crop` is not rejected at all — the analysis pass runs and the call returns a
result whose candidates even carry negative heights (`ch = floor(4 * -2) = -8`). -/
theorem crop_negative_width_not_rejected :
    crop {} sqZero dataZero 1 1 thumbFit 8 8 (-4) 4 false 1 (9 / 10) (1 / 10) 8 =
      .ok ⟨[⟨0, 0, 8, -8, ⟨0, 0, 0, 0, 0⟩⟩, ⟨0, 0, 7, -8, ⟨0, 0, 0, 0, 0⟩⟩],
        some ⟨0, 0, 8, -8, ⟨0, 0, 0, 0, 0⟩⟩⟩ := by
  rw [crop, if_neg (by norm_num)]
  have hs : min (((8 : ℕ) : ℚ) / ((-4 : ℤ) : ℚ)) (((8 : ℕ) : ℚ) / ((4 : ℤ) : ℚ)) = -2 := by
    norm_num
  show (if min (((8 : ℕ) : ℚ) / ((-4 : ℤ) : ℚ)) (((8 : ℕ) : ℚ) / ((4 : ℤ) : ℚ)) = 0
      then (Except.error PyError.zeroDivision : Except PyError CropResult) else _) = _
  rw [if_neg (by rw [hs]; norm_num)]
  show cropFinish {} sqZero dataZero 1 1 1 8 8
      ⌊((-4 : ℤ) : ℚ) * min (((8 : ℕ) : ℚ) / ((-4 : ℤ) : ℚ)) (((8 : ℕ) : ℚ) / ((4 : ℤ) : ℚ))⌋
      ⌊((4 : ℤ) : ℚ) * min (((8 : ℕ) : ℚ) / ((-4 : ℤ) : ℚ)) (((8 : ℕ) : ℚ) / ((4 : ℤ) : ℚ))⌋
      1 (min 1 (max (1 / min (((8 : ℕ) : ℚ) / ((-4 : ℤ) : ℚ)) (((8 : ℕ) : ℚ) / ((4 : ℤ) : ℚ)))
        (9 / 10))) (1 / 10) 8 = _
  rw [hs]
  have hcw : ⌊((-4 : ℤ) : ℚ) * (-2 : ℚ)⌋ = 8 := by norm_num
  have hch : ⌊((4 : ℤ) : ℚ) * (-2 : ℚ)⌋ = -8 := by norm_num
  have hms : min (1 : ℚ) (max (1 / (-2 : ℚ)) (9 / 10)) = 9 / 10 := by norm_num
  rw [hcw, hch, hms]
  have hcand : cropsCandidates 8 8 8 (-8) 1 (9 / 10) (1 / 10) 8 =
      [⟨0, 0, 8, -8⟩, ⟨0, 0, 36 / 5, -36 / 5⟩] := by
    rw [cropsCandidates, scaleList_descend]
    rw [show pyRangeUp 8 8 = [0] from rfl]
    norm_num [takeWhileP]
  have hcrops : crops 8 8 8 (-8) 1 (9 / 10) (1 / 10) 8 =
      .ok [⟨0, 0, 8, -8⟩, ⟨0, 0, 36 / 5, -36 / 5⟩] := by
    rw [crops, if_neg (show ¬pyInt ((1 : ℚ) / 10 * 100) = 0 by norm_num [pyInt]),
      hcand, if_neg (by simp)]
  have hsel1 : selStep (none, -(2 ^ 63 - 1)) ⟨⟨0, 0, 8, -8⟩, ⟨0, 0, 0, 0, 0⟩⟩ =
      (some ⟨⟨0, 0, 8, -8⟩, ⟨0, 0, 0, 0, 0⟩⟩, 0) := by
    rw [selStep_of_lt _ _ (by norm_num)]
  have hsel2 : selStep (some (⟨⟨0, 0, 8, -8⟩, ⟨0, 0, 0, 0, 0⟩⟩ : ScoredCrop), (0 : ℚ))
      ⟨⟨0, 0, 36 / 5, -36 / 5⟩, ⟨0, 0, 0, 0, 0⟩⟩ =
      (some ⟨⟨0, 0, 8, -8⟩, ⟨0, 0, 0, 0, 0⟩⟩, 0) :=
    selStep_of_ge _ _ (by norm_num)
  have hana : analyse {} sqZero dataZero 1 1 8 8 8 (-8) 1 (9 / 10) (1 / 10) 8 =
      .ok ⟨[⟨⟨0, 0, 8, -8⟩, ⟨0, 0, 0, 0, 0⟩⟩, ⟨⟨0, 0, 36 / 5, -36 / 5⟩, ⟨0, 0, 0, 0, 0⟩⟩],
        some ⟨⟨0, 0, 8, -8⟩, ⟨0, 0, 0, 0, 0⟩⟩⟩ := by
    rw [analyse, hcrops]
    show Except.ok _ = _
    simp only [List.map_cons, List.map_nil, score_dataZero]
    rw [show selectTop [⟨⟨0, 0, 8, -8⟩, ⟨0, 0, 0, 0, 0⟩⟩,
        ⟨⟨0, 0, 36 / 5, -36 / 5⟩, ⟨0, 0, 0, 0, 0⟩⟩] =
        selStep (selStep (none, -(2 ^ 63 - 1)) ⟨⟨0, 0, 8, -8⟩, ⟨0, 0, 0, 0, 0⟩⟩)
          ⟨⟨0, 0, 36 / 5, -36 / 5⟩, ⟨0, 0, 0, 0, 0⟩⟩ from rfl]
    rw [hsel1, hsel2]
  rw [cropFinish, hana]
  show Except.ok _ = _
  simp only [Option.map_some', List.map_cons, List.map_nil]
  norm_num [rescaleCrop, RCrop.mk.injEq]

/-! ### C5 -/

/-- The flattened-buffer index `int(floor(y/D)*tw + floor(x/D))` read by one
iteration of the `score` loop. -/
def cellIndex (tw D : ℕ) (x y : ℕ) : ℕ :=
  (⌊(y : ℚ) * (1 / (D : ℚ))⌋ * tw + ⌊(x : ℚ) * (1 / (D : ℚ))⌋).toNat

/-- The per-cell detail contribution of the `score` loop. -/
def cellDetail (cfg : Config) (sq : ℚ → ℚ) (data : ℕ → Pixel) (tw : ℕ)
    (c : Crop) (x y : ℕ) : ℚ :=
  ((data (cellIndex tw cfg.score_down_sample x y)).g : ℚ) / 255 *
    importance cfg sq c (x : ℚ) (y : ℚ)

/-- The per-cell skin contribution of the `score` loop. -/
def cellSkin (cfg : Config) (sq : ℚ → ℚ) (data : ℕ → Pixel) (tw : ℕ)
    (c : Crop) (x y : ℕ) : ℚ :=
  ((data (cellIndex tw cfg.score_down_sample x y)).r : ℚ) / 255 *
    (((data (cellIndex tw cfg.score_down_sample x y)).g : ℚ) / 255 + cfg.skin_bias) *
    importance cfg sq c (x : ℚ) (y : ℚ)

/-- The per-cell saturation contribution of the `score` loop. -/
def cellSaturation (cfg : Config) (sq : ℚ → ℚ) (data : ℕ → Pixel) (tw : ℕ)
    (c : Crop) (x y : ℕ) : ℚ :=
  ((data (cellIndex tw cfg.score_down_sample x y)).b : ℚ) / 255 *
    (((data (cellIndex tw cfg.score_down_sample x y)).g : ℚ) / 255 + cfg.saturation_bias) *
    importance cfg sq c (x : ℚ) (y : ℚ)

/-- The per-cell boost contribution of the `score` loop. -/
def cellBoost (cfg : Config) (sq : ℚ → ℚ) (data : ℕ → Pixel) (tw : ℕ)
    (c : Crop) (x y : ℕ) : ℚ :=
  ((data (cellIndex tw cfg.score_down_sample x y)).a : ℚ) / 255 *
    importance cfg sq c (x : ℚ) (y : ℚ)

/-- `score` rephrased through the named per-cell contributions (definitional). -/
theorem score_reform (cfg : Config) (sq : ℚ → ℚ) (data : ℕ → Pixel) (tw th : ℕ)
    (c : Crop) :
    score cfg sq data tw th c =
      (fun base : ScoreB =>
        (⟨base.detail, base.saturation, base.skin, base.boost,
          (base.detail * cfg.detail_weight + base.skin * cfg.skin_weight +
            base.saturation * cfg.saturation_weight + base.boost * cfg.boost_weight) /
          (c.width * c.height)⟩ : ScoreB))
      ((pyRangeUp (th * cfg.score_down_sample) cfg.score_down_sample).foldl
        (fun (acc : ScoreB) (y : ℕ) =>
          (pyRangeUp (tw * cfg.score_down_sample) cfg.score_down_sample).foldl
            (fun (acc : ScoreB) (x : ℕ) =>
              ⟨acc.detail + cellDetail cfg sq data tw c x y,
               acc.saturation + cellSaturation cfg sq data tw c x y,
               acc.skin + cellSkin cfg sq data tw c x y,
               acc.boost + cellBoost cfg sq data tw c x y,
               acc.total⟩) acc)
        ⟨0, 0, 0, 0, 0⟩) := rfl

/-- Folding a step that adds a per-element amount to each channel equals the
start plus the channelwise list sums. -/
theorem foldl_add_fields {F : ScoreB → ℕ → ScoreB} {fd fsat fs fb : ℕ → ℚ}
    (hF : ∀ (acc : ScoreB) (x : ℕ), F acc x =
      ⟨acc.detail + fd x, acc.saturation + fsat x, acc.skin + fs x,
        acc.boost + fb x, acc.total⟩) :
    ∀ (l : List ℕ) (acc : ScoreB), l.foldl F acc =
      ⟨acc.detail + (l.map fd).sum, acc.saturation + (l.map fsat).sum,
        acc.skin + (l.map fs).sum, acc.boost + (l.map fb).sum, acc.total⟩ := by
  intro l
  induction l with
  | nil => intro acc; cases acc; simp
  | cons a t ih =>
    intro acc
    rw [List.foldl_cons, hF, ih]
    simp only [List.map_cons, List.sum_cons, add_assoc]

theorem pyRangeUp_mul (n D : ℕ) (hD : 0 < D) :
    pyRangeUp (n * D) D = (List.range n).map (· * D) := by
  rw [pyRangeUp]
  have h1 : n * D + D - 1 = (D - 1) + D * n := by
    rw [Nat.mul_comm n D]
    omega
  rw [h1, Nat.add_mul_div_left _ _ hD, Nat.div_eq_of_lt (by omega), Nat.zero_add]

theorem sum_map_range (f : ℕ → ℚ) : ∀ n : ℕ,
    ((List.range n).map f).sum = ∑ i ∈ Finset.range n, f i := by
  intro n
  induction n with
  | zero => simp
  | succ k ih =>
    rw [List.range_succ, List.map_append, List.sum_append, Finset.sum_range_succ, ih]
    simp

theorem cellIndex_mul (tw D : ℕ) (hD : 0 < D) (i j : ℕ) :
    cellIndex tw D (i * D) (j * D) = j * tw + i := by
  have hD' : (D : ℚ) ≠ 0 := Nat.cast_ne_zero.2 hD.ne'
  have h1 : ∀ k : ℕ, ((k * D : ℕ) : ℚ) * (1 / (D : ℚ)) = (k : ℚ) := by
    intro k
    push_cast
    field_simp
  rw [cellIndex, h1, h1, Int.floor_natCast, Int.floor_natCast]
  omega

/-- C5: `score` visits every cell of the downsampled feature map exactly once,
adding for the cell at row `j`, column `i` (buffer index `j*tw + i`) the four
documented contributions with `importance` evaluated at the
analysis-resolution coordinates `(i*D, j*D)` (multiples of
`score_down_sample`), and its total is the weighted sum of the four
accumulators divided by `crop.width * crop.height`. -/
theorem score_cellwise_sum (cfg : Config) (sq : ℚ → ℚ) (data : ℕ → Pixel)
    (tw th : ℕ) (c : Crop) (hD : 0 < cfg.score_down_sample) :
    (score cfg sq data tw th c).detail =
      (∑ j ∈ Finset.range th, ∑ i ∈ Finset.range tw,
        ((data (j * tw + i)).g : ℚ) / 255 *
          importance cfg sq c ((i * cfg.score_down_sample : ℕ) : ℚ)
            ((j * cfg.score_down_sample : ℕ) : ℚ)) ∧
    (score cfg sq data tw th c).skin =
      (∑ j ∈ Finset.range th, ∑ i ∈ Finset.range tw,
        ((data (j * tw + i)).r : ℚ) / 255 *
          (((data (j * tw + i)).g : ℚ) / 255 + cfg.skin_bias) *
          importance cfg sq c ((i * cfg.score_down_sample : ℕ) : ℚ)
            ((j * cfg.score_down_sample : ℕ) : ℚ)) ∧
    (score cfg sq data tw th c).saturation =
      (∑ j ∈ Finset.range th, ∑ i ∈ Finset.range tw,
        ((data (j * tw + i)).b : ℚ) / 255 *
          (((data (j * tw + i)).g : ℚ) / 255 + cfg.saturation_bias) *
          importance cfg sq c ((i * cfg.score_down_sample : ℕ) : ℚ)
            ((j * cfg.score_down_sample : ℕ) : ℚ)) ∧
    (score cfg sq data tw th c).boost =
      (∑ j ∈ Finset.range th, ∑ i ∈ Finset.range tw,
        ((data (j * tw + i)).a : ℚ) / 255 *
          importance cfg sq c ((i * cfg.score_down_sample : ℕ) : ℚ)
            ((j * cfg.score_down_sample : ℕ) : ℚ)) ∧
    (score cfg sq data tw th c).total =
      ((score cfg sq data tw th c).detail * cfg.detail_weight +
        (score cfg sq data tw th c).skin * cfg.skin_weight +
        (score cfg sq data tw th c).saturation * cfg.saturation_weight +
        (score cfg sq data tw th c).boost * cfg.boost_weight) /
      (c.width * c.height) := by
  have hinner : ∀ (y : ℕ) (acc : ScoreB),
      (List.range tw).foldl
        (fun (acc : ScoreB) (i : ℕ) =>
          ⟨acc.detail + cellDetail cfg sq data tw c (i * cfg.score_down_sample) y,
           acc.saturation + cellSaturation cfg sq data tw c (i * cfg.score_down_sample) y,
           acc.skin + cellSkin cfg sq data tw c (i * cfg.score_down_sample) y,
           acc.boost + cellBoost cfg sq data tw c (i * cfg.score_down_sample) y,
           acc.total⟩) acc =
      ⟨acc.detail + ((List.range tw).map
          (fun i => cellDetail cfg sq data tw c (i * cfg.score_down_sample) y)).sum,
        acc.saturation + ((List.range tw).map
          (fun i => cellSaturation cfg sq data tw c (i * cfg.score_down_sample) y)).sum,
        acc.skin + ((List.range tw).map
          (fun i => cellSkin cfg sq data tw c (i * cfg.score_down_sample) y)).sum,
        acc.boost + ((List.range tw).map
          (fun i => cellBoost cfg sq data tw c (i * cfg.score_down_sample) y)).sum,
        acc.total⟩ :=
    fun y => foldl_add_fields (fun acc i => rfl) (List.range tw)
  have hmaster : score cfg sq data tw th c =
      ⟨∑ j ∈ Finset.range th, ∑ i ∈ Finset.range tw,
          cellDetail cfg sq data tw c (i * cfg.score_down_sample) (j * cfg.score_down_sample),
        ∑ j ∈ Finset.range th, ∑ i ∈ Finset.range tw,
          cellSaturation cfg sq data tw c (i * cfg.score_down_sample) (j * cfg.score_down_sample),
        ∑ j ∈ Finset.range th, ∑ i ∈ Finset.range tw,
          cellSkin cfg sq data tw c (i * cfg.score_down_sample) (j * cfg.score_down_sample),
        ∑ j ∈ Finset.range th, ∑ i ∈ Finset.range tw,
          cellBoost cfg sq data tw c (i * cfg.score_down_sample) (j * cfg.score_down_sample),
        ((∑ j ∈ Finset.range th, ∑ i ∈ Finset.range tw,
            cellDetail cfg sq data tw c (i * cfg.score_down_sample) (j * cfg.score_down_sample)) *
          cfg.detail_weight +
         (∑ j ∈ Finset.range th, ∑ i ∈ Finset.range tw,
            cellSkin cfg sq data tw c (i * cfg.score_down_sample) (j * cfg.score_down_sample)) *
          cfg.skin_weight +
         (∑ j ∈ Finset.range th, ∑ i ∈ Finset.range tw,
            cellSaturation cfg sq data tw c (i * cfg.score_down_sample) (j * cfg.score_down_sample)) *
          cfg.saturation_weight +
         (∑ j ∈ Finset.range th, ∑ i ∈ Finset.range tw,
            cellBoost cfg sq data tw c (i * cfg.score_down_sample) (j * cfg.score_down_sample)) *
          cfg.boost_weight) / (c.width * c.height)⟩ := by
    rw [score_reform]
    rw [pyRangeUp_mul th _ hD, pyRangeUp_mul tw _ hD]
    simp only [List.foldl_map]
    rw [foldl_add_fields (fun acc j => hinner (j * cfg.score_down_sample) acc)]
    simp only [zero_add, sum_map_range]
  rw [hmaster]
  simp only [cellDetail, cellSkin, cellSaturation, cellBoost,
    cellIndex_mul tw cfg.score_down_sample hD]
  exact ⟨trivial, trivial, trivial, trivial, trivial⟩

/-- Witness for C5 on a 1×1 downsampled map with `score_down_sample = 1` and
a constant feature value `(255, 255, 255, 255)`. -/
theorem score_cellwise_sum_witness :
    (score { score_down_sample := 1 } sqZero (fun _ => ⟨255, 255, 255, 255⟩) 1 1
        ⟨0, 0, 1, 1⟩).detail =
      (∑ j ∈ Finset.range 1, ∑ i ∈ Finset.range 1,
        (((fun (_ : ℕ) => (⟨255, 255, 255, 255⟩ : Pixel)) (j * 1 + i)).g : ℚ) / 255 *
          importance { score_down_sample := 1 } sqZero ⟨0, 0, 1, 1⟩ ((i * 1 : ℕ) : ℚ)
            ((j * 1 : ℕ) : ℚ)) ∧
    (score { score_down_sample := 1 } sqZero (fun _ => ⟨255, 255, 255, 255⟩) 1 1
        ⟨0, 0, 1, 1⟩).skin =
      (∑ j ∈ Finset.range 1, ∑ i ∈ Finset.range 1,
        (((fun (_ : ℕ) => (⟨255, 255, 255, 255⟩ : Pixel)) (j * 1 + i)).r : ℚ) / 255 *
          ((((fun (_ : ℕ) => (⟨255, 255, 255, 255⟩ : Pixel)) (j * 1 + i)).g : ℚ) / 255 +
            ({ score_down_sample := 1 } : Config).skin_bias) *
          importance { score_down_sample := 1 } sqZero ⟨0, 0, 1, 1⟩ ((i * 1 : ℕ) : ℚ)
            ((j * 1 : ℕ) : ℚ)) ∧
    (score { score_down_sample := 1 } sqZero (fun _ => ⟨255, 255, 255, 255⟩) 1 1
        ⟨0, 0, 1, 1⟩).saturation =
      (∑ j ∈ Finset.range 1, ∑ i ∈ Finset.range 1,
        (((fun (_ : ℕ) => (⟨255, 255, 255, 255⟩ : Pixel)) (j * 1 + i)).b : ℚ) / 255 *
          ((((fun (_ : ℕ) => (⟨255, 255, 255, 255⟩ : Pixel)) (j * 1 + i)).g : ℚ) / 255 +
            ({ score_down_sample := 1 } : Config).saturation_bias) *
          importance { score_down_sample := 1 } sqZero ⟨0, 0, 1, 1⟩ ((i * 1 : ℕ) : ℚ)
            ((j * 1 : ℕ) : ℚ)) ∧
    (score { score_down_sample := 1 } sqZero (fun _ => ⟨255, 255, 255, 255⟩) 1 1
        ⟨0, 0, 1, 1⟩).boost =
      (∑ j ∈ Finset.range 1, ∑ i ∈ Finset.range 1,
        (((fun (_ : ℕ) => (⟨255, 255, 255, 255⟩ : Pixel)) (j * 1 + i)).a : ℚ) / 255 *
          importance { score_down_sample := 1 } sqZero ⟨0, 0, 1, 1⟩ ((i * 1 : ℕ) : ℚ)
            ((j * 1 : ℕ) : ℚ)) ∧
    (score { score_down_sample := 1 } sqZero (fun _ => ⟨255, 255, 255, 255⟩) 1 1
        ⟨0, 0, 1, 1⟩).total =
      ((score { score_down_sample := 1 } sqZero (fun _ => ⟨255, 255, 255, 255⟩) 1 1
          ⟨0, 0, 1, 1⟩).detail * ({ score_down_sample := 1 } : Config).detail_weight +
        (score { score_down_sample := 1 } sqZero (fun _ => ⟨255, 255, 255, 255⟩) 1 1
          ⟨0, 0, 1, 1⟩).skin * ({ score_down_sample := 1 } : Config).skin_weight +
        (score { score_down_sample := 1 } sqZero (fun _ => ⟨255, 255, 255, 255⟩) 1 1
          ⟨0, 0, 1, 1⟩).saturation * ({ score_down_sample := 1 } : Config).saturation_weight +
        (score { score_down_sample := 1 } sqZero (fun _ => ⟨255, 255, 255, 255⟩) 1 1
          ⟨0, 0, 1, 1⟩).boost * ({ score_down_sample := 1 } : Config).boost_weight) /
      ((⟨0, 0, 1, 1⟩ : Crop).width * (⟨0, 0, 1, 1⟩ : Crop).height) :=
  score_cellwise_sum { score_down_sample := 1 } sqZero (fun _ => ⟨255, 255, 255, 255⟩)
    1 1 ⟨0, 0, 1, 1⟩ (by norm_num)

/-! ### C2 -/

theorem pyInt_nonneg {q : ℚ} (h : 0 ≤ q) : 0 ≤ pyInt q := by
  rw [pyInt, if_neg (not_lt.2 h)]
  exact Int.floor_nonneg.2 h

theorem pyInt_le_self {q : ℚ} (h : 0 ≤ q) : (pyInt q : ℚ) ≤ q := by
  rw [pyInt, if_neg (not_lt.2 h)]
  exact Int.floor_le q

/-- Every candidate emitted by the `crops` loops satisfies the loop guards:
its rectangle ends within the working image. -/
theorem mem_cropsCandidates {W H : ℕ} {cw ch : ℤ} {maxs mins sstep : ℚ}
    {step : ℕ} {c : Crop}
    (h : c ∈ cropsCandidates W H cw ch maxs mins sstep step) :
    (c.x : ℚ) + c.width ≤ (W : ℚ) ∧ (c.y : ℚ) + c.height ≤ (H : ℚ) := by
  rw [cropsCandidates] at h
  rw [List.mem_flatMap] at h
  obtain ⟨s, -, h⟩ := h
  rw [List.mem_flatMap] at h
  obtain ⟨y, hy, h⟩ := h
  rw [List.mem_map] at h
  obtain ⟨x, hx, rfl⟩ := h
  obtain ⟨hpx, -⟩ := mem_takeWhileP hx
  obtain ⟨hpy, -⟩ := mem_takeWhileP hy
  exact ⟨not_lt.1 hpx, not_lt.1 hpy⟩

/-- The selection loop only ever returns an element of the list. -/
theorem selStep_foldl_mem (l : List ScoredCrop) :
    ∀ (st : Option ScoredCrop × ℚ) (sc : ScoredCrop),
      (l.foldl selStep st).1 = some sc → sc ∈ l ∨ st.1 = some sc := by
  induction l with
  | nil => intro st sc h; exact Or.inr h
  | cons b t ih =>
    intro st sc h
    rw [List.foldl_cons] at h
    rcases ih (selStep st b) sc h with hm | hst
    · exact Or.inl (List.mem_cons_of_mem b hm)
    · rw [selStep] at hst
      by_cases hc : st.2 < b.score.total
      · rw [if_pos hc] at hst
        obtain rfl : b = sc := by injection hst
        exact Or.inl (List.mem_cons_self b t)
      · rw [if_neg hc] at hst
        exact Or.inr hst

theorem selectTop_mem {l : List ScoredCrop} {sc : ScoredCrop}
    (h : (selectTop l).1 = some sc) : sc ∈ l := by
  rcases selStep_foldl_mem l (none, -(2 ^ 63 - 1)) sc h with hm | hst
  · exact hm
  · exact absurd hst (by intro hh; cases hh)

/-- Rescaling arithmetic: if an interval `[x, x+w]` fits in `[0, W']` and the
working width `W'` is at most `w0 * p`, then after dividing by `p` and
flooring both endpoints' components, the rectangle still fits in `[0, w0]`. -/
theorem floor_rescale_bound (x w W' : ℚ) (w0 : ℕ) (p : ℚ) (hp : 0 < p)
    (hx : 0 ≤ x) (hsum : x + w ≤ W') (hW : W' ≤ (w0 : ℚ) * p) :
    0 ≤ ⌊x / p⌋ ∧ ⌊x / p⌋ + ⌊w / p⌋ ≤ (w0 : ℤ) := by
  have hxp : 0 ≤ x / p := div_nonneg hx (le_of_lt hp)
  refine ⟨Int.floor_nonneg.2 hxp, ?_⟩
  have h1 : (⌊x / p⌋ : ℚ) + (⌊w / p⌋ : ℚ) ≤ x / p + w / p :=
    add_le_add (Int.floor_le _) (Int.floor_le _)
  have h2 : x / p + w / p = (x + w) / p := (add_div x w p).symm
  have h3 : (x + w) / p ≤ W' / p := (div_le_div_right hp).2 hsum
  have h4 : W' / p ≤ ((w0 : ℚ) * p) / p := (div_le_div_right hp).2 hW
  have h5 : ((w0 : ℚ) * p) / p = (w0 : ℚ) := mul_div_cancel_right₀ _ (ne_of_gt hp)
  have h6 : (⌊x / p⌋ : ℚ) + (⌊w / p⌋ : ℚ) ≤ (w0 : ℚ) := by
    rw [h2] at h1
    linarith
  exact_mod_cast h6

/-- Bounds for all rectangles coming out of `cropFinish`, given a working
image that fits inside `w0*p × h0*p`. -/
theorem cropFinish_bounds (cfg : Config) (sq : ℚ → ℚ) (data : ℕ → Pixel)
    (tw th : ℕ) (p : ℚ) (W H : ℕ) (cw ch : ℤ) (maxs mins sstep : ℚ) (step : ℕ)
    (w0 h0 : ℕ) (r : CropResult) (hp : 0 < p)
    (hW : (W : ℚ) ≤ (w0 : ℚ) * p) (hH : (H : ℚ) ≤ (h0 : ℚ) * p)
    (hok : cropFinish cfg sq data tw th p W H cw ch maxs mins sstep step = .ok r) :
    (∀ c ∈ r.crops, 0 ≤ c.x ∧ 0 ≤ c.y ∧
      c.x + c.width ≤ (w0 : ℤ) ∧ c.y + c.height ≤ (h0 : ℤ)) ∧
    (∀ t, r.top_crop = some t → 0 ≤ t.x ∧ 0 ≤ t.y ∧
      t.x + t.width ≤ (w0 : ℤ) ∧ t.y + t.height ≤ (h0 : ℤ)) := by
  rw [cropFinish, analyse] at hok
  cases hc : crops W H cw ch maxs mins sstep step with
  | error e =>
    rw [hc] at hok
    exact absurd hok (by intro hh; cases hh)
  | ok cs =>
    rw [hc] at hok
    obtain ⟨hcs, -⟩ := crops_eq_ok hc
    have hr : r = ⟨(cs.map (fun c => (⟨c, score cfg sq data tw th c⟩ : ScoredCrop))).map
          (rescaleCrop p),
        ((selectTop (cs.map (fun c => ⟨c, score cfg sq data tw th c⟩))).1).map
          (rescaleCrop p)⟩ := by
      have hok' : (Except.ok
          (⟨(cs.map (fun c => (⟨c, score cfg sq data tw th c⟩ : ScoredCrop))).map
              (rescaleCrop p),
            ((selectTop (cs.map (fun c => ⟨c, score cfg sq data tw th c⟩))).1).map
              (rescaleCrop p)⟩ : CropResult) : Except PyError CropResult) = .ok r := hok
      injection hok' with hh
      exact hh.symm
    have hbound : ∀ sc : ScoredCrop,
        sc ∈ cs.map (fun c => (⟨c, score cfg sq data tw th c⟩ : ScoredCrop)) →
        0 ≤ (rescaleCrop p sc).x ∧ 0 ≤ (rescaleCrop p sc).y ∧
        (rescaleCrop p sc).x + (rescaleCrop p sc).width ≤ (w0 : ℤ) ∧
        (rescaleCrop p sc).y + (rescaleCrop p sc).height ≤ (h0 : ℤ) := by
      intro sc hm
      rw [List.mem_map] at hm
      obtain ⟨c, hcmem, rfl⟩ := hm
      rw [hcs] at hcmem
      obtain ⟨hxw, hyh⟩ := mem_cropsCandidates hcmem
      obtain ⟨h1, h2⟩ := floor_rescale_bound (c.x : ℚ) c.width (W : ℚ) w0 p hp
        (Nat.cast_nonneg c.x) hxw hW
      obtain ⟨h3, h4⟩ := floor_rescale_bound (c.y : ℚ) c.height (H : ℚ) h0 p hp
        (Nat.cast_nonneg c.y) hyh hH
      exact ⟨h1, h3, h2, h4⟩
    subst hr
    constructor
    · intro c hm
      rw [List.mem_map] at hm
      obtain ⟨sc, hsc, rfl⟩ := hm
      exact hbound sc hsc
    · intro t ht
      rw [Option.map_eq_some'] at ht
      obtain ⟨sc, hsel, rfl⟩ := ht
      exact hbound sc (selectTop_mem hsel)

/-- C2: whenever the top-level `crop` returns a result, every rescaled crop
rectangle in it — and in particular the top crop — lies inside the original
image bounds: `0 ≤ x`, `0 ≤ y`, `x + width ≤ image_width`,
`y + height ≤ image_height`.  The thumbnail hypothesis is PIL's contract that
a thumbnail fits inside the requested box. -/
theorem crop_result_within_bounds (cfg : Config) (sq : ℚ → ℚ) (data : ℕ → Pixel)
    (tw th : ℕ) (thumb : ℤ → ℤ → ℕ × ℕ) (image_width image_height : ℕ)
    (width height : ℤ) (prescale : Bool) (max_scale min_scale scale_step : ℚ)
    (step : ℕ) (r : CropResult)
    (hw : 1 ≤ width) (hh : 1 ≤ height) (hw0 : 1 ≤ image_width) (hh0 : 1 ≤ image_height)
    (hmax : 0 < max_scale)
    (hthumb : ∀ bx bh : ℤ, 0 ≤ bx → 0 ≤ bh →
      ((thumb bx bh).1 : ℤ) ≤ bx ∧ ((thumb bx bh).2 : ℤ) ≤ bh)
    (hok : crop cfg sq data tw th thumb image_width image_height width height
      prescale max_scale min_scale scale_step step = .ok r) :
    (∀ c ∈ r.crops, 0 ≤ c.x ∧ 0 ≤ c.y ∧
      c.x + c.width ≤ (image_width : ℤ) ∧ c.y + c.height ≤ (image_height : ℤ)) ∧
    (∀ t, r.top_crop = some t → 0 ≤ t.x ∧ 0 ≤ t.y ∧
      t.x + t.width ≤ (image_width : ℤ) ∧ t.y + t.height ≤ (image_height : ℤ)) := by
  have hwq : (0 : ℚ) < (width : ℚ) := by exact_mod_cast hw
  have hhq : (0 : ℚ) < (height : ℚ) := by exact_mod_cast hh
  have hw0q : (0 : ℚ) < (image_width : ℚ) := by exact_mod_cast hw0
  have hh0q : (0 : ℚ) < (image_height : ℚ) := by exact_mod_cast hh0
  have hscale : 0 < min ((image_width : ℚ) / (width : ℚ)) ((image_height : ℚ) / (height : ℚ)) :=
    lt_min (div_pos hw0q hwq) (div_pos hh0q hhq)
  have hmins : 0 < min max_scale
      (max (1 / min ((image_width : ℚ) / (width : ℚ)) ((image_height : ℚ) / (height : ℚ)))
        min_scale) :=
    lt_min hmax (lt_max_of_lt_left (one_div_pos.2 hscale))
  have hp : 0 < 1 / min ((image_width : ℚ) / (width : ℚ)) ((image_height : ℚ) / (height : ℚ)) /
      min max_scale
        (max (1 / min ((image_width : ℚ) / (width : ℚ)) ((image_height : ℚ) / (height : ℚ)))
          min_scale) :=
    div_pos (one_div_pos.2 hscale) hmins
  simp only [crop] at hok
  split at hok
  · exact absurd hok (by intro hh2; cases hh2)
  · split at hok
    · exact absurd hok (by intro hh2; cases hh2)
    · split at hok
      · -- prescale branch
        split at hok
        · exact absurd hok (by intro hh2; cases hh2)
        · split at hok
          · -- prescale_size < 1: thumbnailed image
            have hbw : (0 : ℚ) ≤ (image_width : ℚ) *
                (1 / min ((image_width : ℚ) / (width : ℚ)) ((image_height : ℚ) / (height : ℚ)) /
                  min max_scale
                    (max (1 / min ((image_width : ℚ) / (width : ℚ))
                      ((image_height : ℚ) / (height : ℚ))) min_scale)) :=
              mul_nonneg (le_of_lt hw0q) (le_of_lt hp)
            have hbh : (0 : ℚ) ≤ (image_height : ℚ) *
                (1 / min ((image_width : ℚ) / (width : ℚ)) ((image_height : ℚ) / (height : ℚ)) /
                  min max_scale
                    (max (1 / min ((image_width : ℚ) / (width : ℚ))
                      ((image_height : ℚ) / (height : ℚ))) min_scale)) :=
              mul_nonneg (le_of_lt hh0q) (le_of_lt hp)
            obtain ⟨ht1, ht2⟩ := hthumb _ _ (pyInt_nonneg hbw) (pyInt_nonneg hbh)
            refine cropFinish_bounds _ _ _ _ _ _ _ _ _ _ _ _ _ _ _ _ _ hp ?_ ?_ hok
            · calc ((thumb _ _).1 : ℚ) ≤ ((pyInt _ : ℤ) : ℚ) := by exact_mod_cast ht1
                _ ≤ _ := pyInt_le_self hbw
            · calc ((thumb _ _).2 : ℚ) ≤ ((pyInt _ : ℤ) : ℚ) := by exact_mod_cast ht2
                _ ≤ _ := pyInt_le_self hbh
          · -- prescale_size ≥ 1: untouched image, p = 1
            exact cropFinish_bounds _ _ _ _ _ _ _ _ _ _ _ _ _ _ _ _ _ one_pos
              (by rw [mul_one]) (by rw [mul_one]) hok
      · -- prescale disabled, p = 1
        exact cropFinish_bounds _ _ _ _ _ _ _ _ _ _ _ _ _ _ _ _ _ one_pos
          (by rw [mul_one]) (by rw [mul_one]) hok

theorem crop_concrete : crop {} sqZero dataZero 1 1 thumbFit 8 8 8 8 true 1 (9 / 10)
    (1 / 10) 8 = .ok ⟨[⟨0, 0, 8, 8, ⟨0, 0, 0, 0, 0⟩⟩], some ⟨0, 0, 8, 8, ⟨0, 0, 0, 0, 0⟩⟩⟩ := by
  have hm : min (((8 : ℕ) : ℚ) / ((8 : ℤ) : ℚ)) (((8 : ℕ) : ℚ) / ((8 : ℤ) : ℚ)) = 1 := by
    norm_num
  have hmins2 : min (1 : ℚ) (max (1 / (1 : ℚ)) (9 / 10)) = 1 := by norm_num
  simp only [crop]
  rw [if_neg (by norm_num : ¬((8 : ℤ) = 0 ∨ (8 : ℤ) = 0))]
  rw [hm]
  rw [if_neg (by norm_num : ¬(1 : ℚ) = 0)]
  rw [if_pos trivial]
  rw [hmins2]
  rw [if_neg (by norm_num : ¬(1 : ℚ) = 0)]
  rw [if_neg (by norm_num : ¬((1 : ℚ) / 1 / 1 < 1))]
  rw [show (⌊((8 : ℤ) : ℚ) * 1⌋ : ℤ) = 8 from by norm_num]
  rw [cropFinish, analyse_concrete]
  show Except.ok _ = _
  simp only [Option.map_some', List.map_cons, List.map_nil]
  norm_num [rescaleCrop, RCrop.mk.injEq]

/-- Witness for C2: the concrete 8×8 crop of an 8×8 image stays inside the
image; `thumbFit` satisfies the thumbnail contract. -/
theorem crop_result_within_bounds_witness :
    (∀ c ∈ (⟨[⟨0, 0, 8, 8, ⟨0, 0, 0, 0, 0⟩⟩], some ⟨0, 0, 8, 8, ⟨0, 0, 0, 0, 0⟩⟩⟩ :
        CropResult).crops, 0 ≤ c.x ∧ 0 ≤ c.y ∧
      c.x + c.width ≤ ((8 : ℕ) : ℤ) ∧ c.y + c.height ≤ ((8 : ℕ) : ℤ)) ∧
    (∀ t, (⟨[⟨0, 0, 8, 8, ⟨0, 0, 0, 0, 0⟩⟩], some ⟨0, 0, 8, 8, ⟨0, 0, 0, 0, 0⟩⟩⟩ :
        CropResult).top_crop = some t → 0 ≤ t.x ∧ 0 ≤ t.y ∧
      t.x + t.width ≤ ((8 : ℕ) : ℤ) ∧ t.y + t.height ≤ ((8 : ℕ) : ℤ)) :=
  crop_result_within_bounds {} sqZero dataZero 1 1 thumbFit 8 8 8 8 true 1 (9 / 10)
    (1 / 10) 8 _ (by norm_num) (by norm_num) (by norm_num) (by norm_num) (by norm_num)
    (by
      intro bx bh h1 h2
      constructor <;> simp [thumbFit] <;> omega)
    crop_concrete

/-! ### C3 -/

/-- `takeWhileP` over `(range n).map f` with a predicate that holds exactly
below a threshold `K` yields `(range K).map f`. -/
theorem takeWhileP_map_range {α : Type} (p : α → Prop) [DecidablePred p] :
    ∀ (K : ℕ) (f : ℕ → α) (n : ℕ), K ≤ n → (∀ k, k < K → p (f k)) →
      (K < n → ¬p (f K)) →
      takeWhileP p ((List.range n).map f) = (List.range K).map f := by
  intro K
  induction K with
  | zero =>
    intro f n _ _ h2
    cases n with
    | zero => rfl
    | succ n' =>
      rw [List.range_succ_eq_map, List.map_cons, takeWhileP,
        if_neg (h2 (Nat.succ_pos n')), List.range_zero, List.map_nil]
  | succ K' ih =>
    intro f n hK h1 h2
    cases n with
    | zero => omega
    | succ n' =>
      rw [List.range_succ_eq_map, List.map_cons, takeWhileP,
        if_pos (h1 0 (Nat.succ_pos K')), List.map_map,
        List.range_succ_eq_map K', List.map_cons, List.map_map]
      congr 1
      exact ih (f ∘ Nat.succ) n' (by omega) (fun k hk => h1 (k + 1) (by omega))
        (fun h => h2 (by omega))

theorem pyInt_intCast (z : ℤ) : pyInt ((z : ℤ) : ℚ) = z := by
  rw [pyInt]
  by_cases hz : ((z : ℤ) : ℚ) < 0
  · rw [if_pos hz]
    rw [show (-((z : ℤ) : ℚ)) = (((-z : ℤ)) : ℚ) from by push_cast; ring]
    rw [Int.floor_intCast]
    ring
  · rw [if_neg hz, Int.floor_intCast]

/-- The membership threshold of the python descending range: index `k` is in
`range(a, b, -s)` exactly when `a - k*s` is still above `b`. -/
theorem pyRange_desc_count_iff (a b : ℤ) (st : ℕ) (hst : 0 < st) (k : ℕ) :
    k < (if a ≤ b then 0 else (a - b - 1).toNat / st + 1) ↔
      b < a - (k : ℤ) * (st : ℤ) := by
  have hks : (0 : ℤ) ≤ (k : ℤ) * (st : ℤ) := by positivity
  by_cases hab : a ≤ b
  · rw [if_pos hab]
    constructor
    · intro h
      exact absurd h (Nat.not_lt_zero k)
    · intro h
      omega
  · rw [if_neg hab]
    push_neg at hab
    have htn : ((a - b - 1).toNat : ℤ) = a - b - 1 := Int.toNat_of_nonneg (by omega)
    constructor
    · intro h
      have h1 : k ≤ (a - b - 1).toNat / st := by omega
      have h2 : k * st ≤ (a - b - 1).toNat := (Nat.le_div_iff_mul_le hst).1 h1
      have h3 : ((k * st : ℕ) : ℤ) ≤ a - b - 1 := by
        rw [← htn]
        exact_mod_cast h2
      push_cast at h3
      omega
    · intro h
      have h3 : ((k * st : ℕ) : ℤ) ≤ a - b - 1 := by push_cast; omega
      rw [← htn] at h3
      have h2 : k * st ≤ (a - b - 1).toNat := by exact_mod_cast h3
      have h1 : k ≤ (a - b - 1).toNat / st := (Nat.le_div_iff_mul_le hst).2 h2
      omega

/-- Both the python loop bound (`range(0, H, step)`) and the spec's unbounded
multiples-of-`step` enumeration cut by the same abort test produce the same
offsets, as long as the crop extent is positive. -/
theorem offsets_eq (H step : ℕ) (e : ℚ) (hstep : 0 < step) (he : 0 < e) :
    takeWhileP (fun (v : ℕ) => ¬((v : ℚ) + e > (H : ℚ))) (pyRangeUp H step) =
      specOffsets H step e := by
  have hstep' : (0 : ℚ) < (step : ℚ) := by exact_mod_cast hstep
  have hiff : ∀ k : ℕ, k < (⌊((H : ℚ) - e) / (step : ℚ)⌋ + 1).toNat ↔
      ((k * step : ℕ) : ℚ) + e ≤ (H : ℚ) := by
    intro k
    rw [Int.lt_toNat, Int.lt_add_one_iff]
    rw [show ((k : ℤ) : ℤ) ≤ ⌊((H : ℚ) - e) / (step : ℚ)⌋ ↔
        ((k : ℤ) : ℚ) ≤ ((H : ℚ) - e) / (step : ℚ) from Int.le_floor]
    rw [le_div_iff hstep']
    push_cast
    constructor <;> intro <;> linarith
  have h1 : ∀ k, k < (⌊((H : ℚ) - e) / (step : ℚ)⌋ + 1).toNat →
      ¬(((k * step : ℕ) : ℚ) + e > (H : ℚ)) := by
    intro k hk
    exact not_lt.2 ((hiff k).1 hk)
  have h2 : ¬¬((((⌊((H : ℚ) - e) / (step : ℚ)⌋ + 1).toNat *
      step : ℕ) : ℚ) + e > (H : ℚ)) := by
    rw [not_not]
    by_contra hcon
    push_neg at hcon
    exact absurd ((hiff _).2 hcon) (lt_irrefl _)
  have hK2 : (⌊((H : ℚ) - e) / (step : ℚ)⌋ + 1).toNat ≤ H + 1 := by
    by_cases hK0 : (⌊((H : ℚ) - e) / (step : ℚ)⌋ + 1).toNat = 0
    · omega
    · have hKpos : 0 < (⌊((H : ℚ) - e) / (step : ℚ)⌋ + 1).toNat := Nat.pos_of_ne_zero hK0
      have hp := (hiff ((⌊((H : ℚ) - e) / (step : ℚ)⌋ + 1).toNat - 1)).1 (by omega)
      have hlt : ((((⌊((H : ℚ) - e) / (step : ℚ)⌋ + 1).toNat - 1) * step : ℕ) : ℚ) <
          (H : ℚ) := by linarith
      have hlt' : ((⌊((H : ℚ) - e) / (step : ℚ)⌋ + 1).toNat - 1) * step < H := by
        exact_mod_cast hlt
      have hle : (⌊((H : ℚ) - e) / (step : ℚ)⌋ + 1).toNat - 1 ≤
          ((⌊((H : ℚ) - e) / (step : ℚ)⌋ + 1).toNat - 1) * step :=
        Nat.le_mul_of_pos_right _ hstep
      omega
  have hK1 : (⌊((H : ℚ) - e) / (step : ℚ)⌋ + 1).toNat ≤ (H + step - 1) / step := by
    by_cases hK0 : (⌊((H : ℚ) - e) / (step : ℚ)⌋ + 1).toNat = 0
    · rw [hK0]
      exact Nat.zero_le _
    · have hKpos : 0 < (⌊((H : ℚ) - e) / (step : ℚ)⌋ + 1).toNat := Nat.pos_of_ne_zero hK0
      have hp := (hiff ((⌊((H : ℚ) - e) / (step : ℚ)⌋ + 1).toNat - 1)).1 (by omega)
      have hlt : ((((⌊((H : ℚ) - e) / (step : ℚ)⌋ + 1).toNat - 1) * step : ℕ) : ℚ) <
          (H : ℚ) := by linarith
      have hlt' : ((⌊((H : ℚ) - e) / (step : ℚ)⌋ + 1).toNat - 1) * step < H := by
        exact_mod_cast hlt
      have hdiv : (⌊((H : ℚ) - e) / (step : ℚ)⌋ + 1).toNat - 1 ≤ (H - 1) / step :=
        (Nat.le_div_iff_mul_le hstep).2 (by omega)
      have hplus : (H - 1) / step + 1 = (H - 1 + step) / step :=
        (Nat.add_div_right (H - 1) hstep).symm
      have hub : (⌊((H : ℚ) - e) / (step : ℚ)⌋ + 1).toNat ≤ (H - 1 + step) / step := by
        omega
      have hHpos : 1 ≤ H := by
        by_contra hH0
        push_neg at hH0
        interval_cases H
        omega
      have : H - 1 + step = H + step - 1 := by omega
      rw [this] at hub
      exact hub
  rw [pyRangeUp, specOffsets]
  rw [takeWhileP_map_range (fun (v : ℕ) => ¬((v : ℚ) + e > (H : ℚ)))
    (⌊((H : ℚ) - e) / (step : ℚ)⌋ + 1).toNat (· * step) ((H + step - 1) / step) hK1
    (fun k hk => h1 k hk) (fun _ => h2)]
  rw [takeWhileP_map_range (fun (v : ℕ) => ¬((v : ℚ) + e > (H : ℚ)))
    (⌊((H : ℚ) - e) / (step : ℚ)⌋ + 1).toNat (· * step) (H + 1) hK2
    (fun k hk => h1 k hk) (fun _ => h2)]

theorem flatMap_congr_mem {α β : Type} {l : List α} {f g : α → List β}
    (h : ∀ a ∈ l, f a = g a) : l.flatMap f = l.flatMap g := by
  induction l with
  | nil => rfl
  | cons a t ih =>
    rw [List.flatMap_cons, List.flatMap_cons, h a (List.mem_cons_self a t),
      ih (fun b hb => h b (List.mem_cons_of_mem a hb))]

theorem scaleList_matches_spec (M m s : ℤ) (hs : 0 < s) :
    scaleList ((M : ℚ) / 100) ((m : ℚ) / 100) ((s : ℚ) / 100) = specScales M m s := by
  have h100 : (100 : ℚ) ≠ 0 := by norm_num
  have hst : 0 < s.toNat := by omega
  have hstoNat : ((s.toNat : ℕ) : ℤ) = s := Int.toNat_of_nonneg (le_of_lt hs)
  have e1 : pyInt ((M : ℚ) / 100 * 100) = M := by
    rw [div_mul_cancel₀ _ h100, pyInt_intCast]
  have e2 : pyInt (((m : ℚ) / 100 - (s : ℚ) / 100) * 100) = m - s := by
    rw [show ((m : ℚ) / 100 - (s : ℚ) / 100) * 100 = (((m - s : ℤ)) : ℚ) from by
      push_cast; ring]
    rw [pyInt_intCast]
  have e3 : pyInt ((s : ℚ) / 100 * 100) = s := by
    rw [div_mul_cancel₀ _ h100, pyInt_intCast]
  have hpf : ∀ k : ℕ, (((m : ℚ) / 100 - (s : ℚ) / 100 <
      ((M : ℚ) - (k : ℚ) * (s : ℚ)) / 100) ↔ (m - s : ℤ) < M - (k : ℤ) * s) := by
    intro k
    rw [div_sub_div_same, div_lt_div_iff_of_pos_right (by norm_num : (0 : ℚ) < 100)]
    constructor
    · intro h
      exact_mod_cast h
    · intro h
      exact_mod_cast h
  obtain ⟨K, hKdef⟩ : ∃ K : ℕ,
      K = if M ≤ m - s then 0 else (M - (m - s) - 1).toNat / s.toNat + 1 := ⟨_, rfl⟩
  have hcount : ∀ k : ℕ, k < K ↔ (m - s : ℤ) < M - (k : ℤ) * s := by
    intro k
    rw [hKdef]
    have := pyRange_desc_count_iff M (m - s) s.toNat hst k
    rw [hstoNat] at this
    exact this
  have h1 : ∀ k, k < K →
      (m : ℚ) / 100 - (s : ℚ) / 100 < ((M : ℚ) - (k : ℚ) * (s : ℚ)) / 100 :=
    fun k hk => (hpf k).2 ((hcount k).1 hk)
  have h2 : K < (M - (m - s)).toNat + 1 →
      ¬((m : ℚ) / 100 - (s : ℚ) / 100 <
        ((M : ℚ) - (K : ℚ) * (s : ℚ)) / 100) := by
    intro _ hcon
    exact absurd ((hcount K).2 ((hpf K).1 hcon)) (lt_irrefl K)
  have hK : K ≤ (M - (m - s)).toNat + 1 := by
    rw [hKdef]
    by_cases hab : M ≤ m - s
    · rw [if_pos hab]
      exact Nat.zero_le _
    · rw [if_neg hab]
      have hd := Nat.div_le_self (M - (m - s) - 1).toNat s.toNat
      omega
  rw [scaleList, e1, e2, e3, specScales, pyRange, List.map_map]
  rw [if_neg (by omega : ¬(0 : ℤ) < -s), if_pos (by omega : -s < 0), neg_neg, ← hKdef]
  rw [takeWhileP_map_range (fun v => ((m : ℚ) / 100 - (s : ℚ) / 100 < v)) K
    (fun k => ((M : ℚ) - (k : ℚ) * (s : ℚ)) / 100) ((M - (m - s)).toNat + 1)
    hK h1 h2]
  refine List.map_congr_left ?_
  intro k _
  show ((M + (k : ℤ) * (-s) : ℤ) : ℚ) / 100 = ((M : ℚ) - (k : ℚ) * (s : ℚ)) / 100
  push_cast
  ring

/-- C3: the candidate enumeration of `SmartCrop.crops` is exactly the
spec-described one — scales descending from `max_scale` by `scale_step`
(values in hundredths; exclusive lower boundary `min_scale - scale_step`),
then row-major offsets over multiples of `step` aborted at the image edges —
provided the three scale parameters are hundredth-quantized (`M/100`, `m/100`,
`s/100`), the step and crop dimensions are positive, and
`scale_step ≤ min_scale` (so every scanned scale is positive). -/
theorem crops_matches_spec (W H : ℕ) (cw ch : ℤ) (M m s : ℤ) (step : ℕ)
    (hcw : 0 < cw) (hch : 0 < ch) (hstep : 0 < step) (hs : 0 < s) (hsm : s ≤ m) :
    cropsCandidates W H cw ch ((M : ℚ) / 100) ((m : ℚ) / 100) ((s : ℚ) / 100) step =
      cropsSpec W H cw ch M m s step := by
  rw [cropsCandidates, cropsSpec, scaleList_matches_spec M m s hs]
  refine flatMap_congr_mem ?_
  intro v hv
  have hvpos : 0 < v := by
    rw [specScales] at hv
    obtain ⟨hpv, -⟩ := mem_takeWhileP hv
    have hms : (s : ℚ) ≤ (m : ℚ) := by exact_mod_cast hsm
    have h0 : (0 : ℚ) ≤ (m : ℚ) / 100 - (s : ℚ) / 100 := by linarith
    linarith
  have hechs : 0 < (ch : ℚ) * v := mul_pos (by exact_mod_cast hch) hvpos
  have hecws : 0 < (cw : ℚ) * v := mul_pos (by exact_mod_cast hcw) hvpos
  simp only [offsets_eq H step ((ch : ℚ) * v) hstep hechs,
    offsets_eq W step ((cw : ℚ) * v) hstep hecws]

/-- Witness for C3 at the default scale grid on an 8×8 image. -/
theorem crops_matches_spec_witness :
    cropsCandidates 8 8 8 8 (((100 : ℤ) : ℚ) / 100) (((100 : ℤ) : ℚ) / 100)
      (((10 : ℤ) : ℚ) / 100) 8 = cropsSpec 8 8 8 8 100 100 10 8 :=
  crops_matches_spec 8 8 8 8 100 100 10 8 (by norm_num) (by norm_num) (by norm_num)
    (by norm_num) (by norm_num)

/-! ### C7 -/

/-- Counterexample to C7: at `v = 1/3` the bump function attains its peak
value `1`, not `0` as the claim states. -/
theorem thirds_one_third_ne_zero : thirds (1 / 3) = 1 ∧ ¬thirds (1 / 3) = 0 := by
  constructor <;> norm_num [thirds, qmod]

/-- C7 (amended): `thirds(0) == thirds(2/3) == thirds(4/3)` (all are exactly
`0`), and `thirds(1/3) == 1` — the peak of the bump, not `0`. -/
theorem thirds_at_third_lines :
    thirds 0 = thirds (2 / 3) ∧ thirds (2 / 3) = thirds (4 / 3) ∧
    thirds 0 = 0 ∧ thirds (1 / 3) = 1 := by
  refine ⟨?_, ?_, ?_, ?_⟩ <;> norm_num [thirds, qmod]

/-! ### C6 -/

/-- C6: `importance` returns the constant `outside_importance` at every point
outside the half-open crop rectangle, and inside it depends only on the
normalized offset, so crops of equal dimensions evaluated at the same relative
offset give equal importance (translation invariance). -/
theorem importance_outside_const_and_translation_invariant :
    (∀ (cfg : Config) (sq : ℚ → ℚ) (c : Crop) (x y : ℚ),
      ¬((c.x : ℚ) ≤ x ∧ x < (c.x : ℚ) + c.width ∧
        (c.y : ℚ) ≤ y ∧ y < (c.y : ℚ) + c.height) →
      importance cfg sq c x y = cfg.outside_importance) ∧
    (∀ (cfg : Config) (sq : ℚ → ℚ) (c₁ c₂ : Crop) (x₁ y₁ x₂ y₂ : ℚ),
      c₁.width = c₂.width → c₁.height = c₂.height →
      ((c₁.x : ℚ) ≤ x₁ ∧ x₁ < (c₁.x : ℚ) + c₁.width ∧
        (c₁.y : ℚ) ≤ y₁ ∧ y₁ < (c₁.y : ℚ) + c₁.height) →
      ((c₂.x : ℚ) ≤ x₂ ∧ x₂ < (c₂.x : ℚ) + c₂.width ∧
        (c₂.y : ℚ) ≤ y₂ ∧ y₂ < (c₂.y : ℚ) + c₂.height) →
      (x₁ - (c₁.x : ℚ)) / c₁.width = (x₂ - (c₂.x : ℚ)) / c₂.width →
      (y₁ - (c₁.y : ℚ)) / c₁.height = (y₂ - (c₂.y : ℚ)) / c₂.height →
      importance cfg sq c₁ x₁ y₁ = importance cfg sq c₂ x₂ y₂) := by
  constructor
  · intro cfg sq c x y h
    rw [importance_eq, if_pos]
    by_contra hc
    push_neg at hc
    obtain ⟨h1, h2, h3, h4⟩ := hc
    exact h ⟨h1, h2, h3, h4⟩
  · intro cfg sq c₁ c₂ x₁ y₁ x₂ y₂ hw hh hin₁ hin₂ hx hy
    rw [importance_eq, importance_eq, if_neg, if_neg, hx, hy]
    · rintro (h | h | h | h)
      · exact absurd hin₂.1 (not_le.2 h)
      · exact absurd hin₂.2.1 (not_lt.2 h)
      · exact absurd hin₂.2.2.1 (not_le.2 h)
      · exact absurd hin₂.2.2.2 (not_lt.2 h)
    · rintro (h | h | h | h)
      · exact absurd hin₁.1 (not_le.2 h)
      · exact absurd hin₁.2.1 (not_lt.2 h)
      · exact absurd hin₁.2.2.1 (not_le.2 h)
      · exact absurd hin₁.2.2.2 (not_lt.2 h)

/-- Witness for C6 at concrete inputs: the point `(9, 1)` lies outside the
crop `8×8` at the origin, and the crops at `(0,0)` and `(16, 24)` of equal
size agree at the same relative offset. -/
theorem importance_outside_witness :
    importance {} sqZero ⟨0, 0, 8, 8⟩ 9 1 = ({} : Config).outside_importance ∧
    importance {} sqZero ⟨0, 0, 8, 8⟩ 2 3 = importance {} sqZero ⟨16, 24, 8, 8⟩ 18 27 := by
  constructor
  · exact importance_outside_const_and_translation_invariant.1 {} sqZero
      ⟨0, 0, 8, 8⟩ 9 1 (by norm_num)
  · exact importance_outside_const_and_translation_invariant.2 {} sqZero
      ⟨0, 0, 8, 8⟩ ⟨16, 24, 8, 8⟩ 2 3 18 27 rfl rfl
      (by norm_num) (by norm_num) (by norm_num) (by norm_num)

/-! ### C9 -/

/-- Counterexample to C9: at the zero pixel (magnitude `0 < 1e-6`) the
displacement set by `detect_skin` is the negated reference skin color, not the
zero vector, and its squared norm is `1.1269`, not `0` — so the distance is
not `0` and the pre-masking likelihood is not `1`. -/
theorem skin_zero_pixel_displacement_nonzero :
    skinDisplacement {} sqZero 0 0 0 = (-(78 / 100), -(57 / 100), -(44 / 100)) ∧
    ¬skinDisplacement {} sqZero 0 0 0 = (0, 0, 0) ∧
    skinDistanceSq {} sqZero 0 0 0 = 11269 / 10000 ∧
    ¬skinDistanceSq {} sqZero 0 0 0 = 0 := by
  refine ⟨?_, ?_, ?_, ?_⟩ <;>
    norm_num [skinDisplacement, skinDistanceSq, sqZero, Prod.ext_iff]

/-- C9 (amended): for every pixel whose color-vector magnitude test
`abs(mag) < 1e-6` fires, `detect_skin` falls back to the explicit displacement
`-skin_color` (so the squared distance is the squared norm of the reference
color, not zero, and the pre-masking likelihood is `1 - sqrt` of that); the
computation is total — no exception is raised. -/
theorem skin_zero_mag_fallback (cfg : Config) (sq : ℚ → ℚ) (r g b : ℚ)
    (h : |sq (r * r + g * g + b * b)| < 1 / 1000000) :
    skinDisplacement cfg sq r g b =
      (-cfg.skin_color_r, -cfg.skin_color_g, -cfg.skin_color_b) ∧
    skinDistanceSq cfg sq r g b =
      cfg.skin_color_r * cfg.skin_color_r + cfg.skin_color_g * cfg.skin_color_g +
        cfg.skin_color_b * cfg.skin_color_b ∧
    skinLikelihood cfg sq r g b =
      1 - sq (cfg.skin_color_r * cfg.skin_color_r + cfg.skin_color_g * cfg.skin_color_g +
        cfg.skin_color_b * cfg.skin_color_b) := by
  have hd : skinDisplacement cfg sq r g b =
      (-cfg.skin_color_r, -cfg.skin_color_g, -cfg.skin_color_b) := by
    rw [skinDisplacement, if_neg]
    simp only [not_not]
    exact h
  have hsq : skinDistanceSq cfg sq r g b =
      cfg.skin_color_r * cfg.skin_color_r + cfg.skin_color_g * cfg.skin_color_g +
        cfg.skin_color_b * cfg.skin_color_b := by
    rw [skinDistanceSq, hd]
    ring
  exact ⟨hd, hsq, by rw [skinLikelihood, hsq]⟩

/-- Witness for C9 (amended) at the zero pixel with the default skin color. -/
theorem skin_zero_mag_fallback_witness :
    skinDisplacement {} sqZero 0 0 0 =
      (-({} : Config).skin_color_r, -({} : Config).skin_color_g,
        -({} : Config).skin_color_b) ∧
    skinDistanceSq {} sqZero 0 0 0 =
      ({} : Config).skin_color_r * ({} : Config).skin_color_r +
        ({} : Config).skin_color_g * ({} : Config).skin_color_g +
        ({} : Config).skin_color_b * ({} : Config).skin_color_b ∧
    skinLikelihood {} sqZero 0 0 0 =
      1 - sqZero (({} : Config).skin_color_r * ({} : Config).skin_color_r +
        ({} : Config).skin_color_g * ({} : Config).skin_color_g +
        ({} : Config).skin_color_b * ({} : Config).skin_color_b) :=
  skin_zero_mag_fallback {} sqZero 0 0 0 (by norm_num [sqZero])

/-! ### C10 -/

theorem applyBoost_foldl (l : List Boost) (j i : ℕ) :
    ∀ g : ℕ → ℕ → ℚ,
      (l.foldl (fun g b => applyBoost b g) g) j i =
        g j i + ((l.filter (fun b => decide (boostCovers b j i))).map Boost.weight).sum * 255 := by
  induction l with
  | nil => intro g; simp
  | cons b t ih =>
    intro g
    rw [List.foldl_cons, ih]
    by_cases hc : boostCovers b j i
    · rw [List.filter_cons_of_pos (by simpa using hc), List.map_cons, List.sum_cons]
      show (if boostCovers b j i then g j i + b.weight * 255 else g j i) + _ = _
      rw [if_pos hc]
      ring
    · rw [List.filter_cons_of_neg (by simpa using hc)]
      show (if boostCovers b j i then g j i + b.weight * 255 else g j i) + _ = _
      rw [if_neg hc]

/-- C10: boost contributions accumulate additively — each cell of the float
grid holds `255 *` the sum of the weights of the boost regions whose
`[int(x), int(x+w)) × [int(y), int(y+h))` rectangle covers it — and the 8-bit
boost channel is that value truncated toward zero and reduced modulo 256
(wrap-around, not clamping); with an empty boost list every cell is `0`. -/
theorem boost_additive_wraps (l : List Boost) (j i : ℕ) :
    applyBoosts (some l) j i =
      ((l.filter (fun b => decide (boostCovers b j i))).map Boost.weight).sum * 255 ∧
    boostChannel (some l) j i =
      (pyInt (((l.filter (fun b => decide (boostCovers b j i))).map Boost.weight).sum * 255)).emod 256 ∧
    applyBoosts (some []) j i = 0 ∧ boostChannel (some []) j i = 0 ∧
    applyBoosts none j i = 0 ∧ boostChannel none j i = 0 := by
  have h1 : applyBoosts (some l) j i =
      ((l.filter (fun b => decide (boostCovers b j i))).map Boost.weight).sum * 255 := by
    rw [applyBoosts, applyBoost_foldl l j i]
    ring
  refine ⟨h1, by rw [boostChannel, h1], by simp [applyBoosts], ?_, rfl, ?_⟩
  · norm_num [boostChannel, applyBoosts, pyInt]
  · norm_num [boostChannel, applyBoosts, pyInt]

end Smartcrop
